import Mathlib

/-!
# HomeSpan: the Characteristic value cell, its renderer, setters and persistence bridge

A shallow embedding of `src/HomeSpan.h` (struct `SpanCharacteristic` and the parts
of `Span`, `SpanService`, `SpanBuf` its inline member functions touch).

Conventions of the embedding

* C integers are mathematical integers; every narrowing conversion is written
  out as an explicit reduction modulo a power of two (`CType.cast`).
* The argument `val` of the templated members (`uvSet`, `setVal`, `init`,
  `setRange`) ranges over the integer types; its value is given as an `Int`.
  Arguments of type `double` or `const char *` are outside the embedding.
* The C union `UVal` is read and written only through the format tag, so the
  embedding keeps the member that was written (a sum over the eight members).
  The bytes of a cell that lie outside the member selected by the tag are not
  represented.
* Double precision arithmetic is not interpreted: the two conversions the code
  applies to a `FLOAT` cell are fields of `DoubleOps`, and every theorem holds
  for every choice of them.
* Objects referenced by pointer (`this`, the entries of
  `SpanService::Characteristics`, `SpanBuf::characteristic`) live in a heap
  indexed by `CharPtr`.
* `homeSpan.configLog` and the text of the messages written to `Serial` are not
  represented; `Serial` records which warning was printed.
-/

namespace HomeSpan

/-! ## C integer types and conversions -/

/-- The integer types a template parameter `T` can be instantiated with. -/
inductive CType where
  | bool
  | int8
  | uint8
  | int16
  | uint16
  | int32
  | uint32
  | int64
  | uint64
  deriving DecidableEq, Repr

/-- Conversion to an unsigned type of `w` bits: reduction modulo `2^w`. -/
def toUnsigned (w : Nat) (v : Int) : Int := v % 2 ^ w

/-- Conversion to a two's-complement signed type of `w` bits. -/
def toSigned (w : Nat) (v : Int) : Int := (v + 2 ^ (w - 1)) % 2 ^ w - 2 ^ (w - 1)

/-- The C conversion `(T) v` of an integer value `v`. -/
def CType.cast : CType → Int → Int
  | .bool, v => if v = 0 then 0 else 1
  | .int8, v => toSigned 8 v
  | .uint8, v => toUnsigned 8 v
  | .int16, v => toSigned 16 v
  | .uint16, v => toUnsigned 16 v
  | .int32, v => toSigned 32 v
  | .uint32, v => toUnsigned 32 v
  | .int64, v => toSigned 64 v
  | .uint64, v => toUnsigned 64 v

/-- The value `v` is representable in `T` (conversion to `T` does not change it). -/
def CType.holds (T : CType) (v : Int) : Prop := T.cast v = v

instance (T : CType) (v : Int) : Decidable (T.holds v) := by
  unfold CType.holds; infer_instance

/-- The two conversions the code applies to a `double`, left uninterpreted, and
the order of doubles (used only to state range properties). -/
structure DoubleOps (D : Type) where
  /-- The conversion `(double) val` from an integer value. -/
  ofInt : Int → D
  /-- The conversion `(T) u.FLOAT`. -/
  toInt : CType → D → Int
  /-- The comparison `x <= y` of two doubles. -/
  le : D → D → Bool

/-- An instance of `DoubleOps` on the doubles that are integers of magnitude
below `2^53`, where both conversions are exact. Used to evaluate examples. -/
def exactDoubles : DoubleOps Int where
  ofInt := fun v => v
  toInt := fun T d => T.cast d
  le := fun x y => decide (x ≤ y)

/-! ## Declarations of headers that are not among the sources -/

/-- Modelled from the spec: the format tag `FORMAT` of `Characteristics.h` (not
among the sources); the eight formats of the data model, under the names
`HomeSpan.h` uses for them. -/
inductive FORMAT where
  | BOOL
  | UINT8
  | UINT16
  | UINT32
  | UINT64
  | INT
  | FLOAT
  | STRING
  deriving DecidableEq, Repr

/-- Modelled from the spec: the status codes `StatusCode` of `HAPConstants.h`
(not among the sources): success and the per-target error taxonomy. `HomeSpan.h`
only uses `OK`. -/
inductive StatusCode where
  | OK
  | ResourceNotFound
  | InsufficientAuthorization
  | ValueOutOfRange
  | ServiceRejected
  | ExpiredOrUnknownTransaction
  deriving DecidableEq, Repr

/-- Modelled from the spec: a catalog entry `HapChar` of `Characteristics.h` (not
among the sources); `HomeSpan.h` reads only its `type`. -/
structure HapChar where
  type : String
  deriving DecidableEq, Repr

/-! ## The value cell -/

/-- The union `UVal`: the member last written. `STRING` is the `char *`
member, named by the text it points to (`none` is the null pointer). -/
inductive UVal (D : Type) where
  | BOOL (b : Bool)
  | UINT8 (v : Int)
  | UINT16 (v : Int)
  | UINT32 (v : Int)
  | UINT64 (v : Int)
  | INT (v : Int)
  | FLOAT (d : D)
  | STRING (s : Option String)
  deriving DecidableEq, Repr

/-- What the code prints to `Serial`. -/
inductive SerialMsg where
  /-- The text "Can't use getVal() or getNewVal() with string Characteristics". -/
  | getValOnString
  /-- The text "Attempt to update Characteristic ... with setVal() ignored.  No WRITE permission". -/
  | setValIgnored
  /-- The text "Attempt to update Characteristic ... with setVal(...) is out of range". -/
  | setValOutOfRange
  deriving DecidableEq, Repr

/-- The template `uvSet(UVal &u, T val)`: writes the member selected by `format`,
converting `val` to that member's type. There is no case for `STRING`. -/
def uvSet {D : Type} (F : DoubleOps D) (format : FORMAT) (u : UVal D) (val : Int) : UVal D :=
  match format with
  | .BOOL => .BOOL (decide (val ≠ 0))
  | .INT => .INT (CType.int32.cast val)
  | .UINT8 => .UINT8 (CType.uint8.cast val)
  | .UINT16 => .UINT16 (CType.uint16.cast val)
  | .UINT32 => .UINT32 (CType.uint32.cast val)
  | .UINT64 => .UINT64 (CType.uint64.cast val)
  | .FLOAT => .FLOAT (F.ofInt val)
  | .STRING => u

/-- The template `uvGet<T>(UVal &u)`: reads the member selected by `format` and
converts it to `T`; on `STRING` it prints a warning and returns 0. The second
component is what was printed. A cell whose member is not the one selected by
the tag reads as 0 (such a read is outside the embedding). -/
def uvGet {D : Type} (F : DoubleOps D) (T : CType) (format : FORMAT) (u : UVal D) :
    Int × List SerialMsg :=
  match format, u with
  | .BOOL, .BOOL b => (T.cast (if b then 1 else 0), [])
  | .INT, .INT v => (T.cast v, [])
  | .UINT8, .UINT8 v => (T.cast v, [])
  | .UINT16, .UINT16 v => (T.cast v, [])
  | .UINT32, .UINT32 v => (T.cast v, [])
  | .UINT64, .UINT64 v => (T.cast v, [])
  | .FLOAT, .FLOAT d => (F.toInt T d, [])
  | .STRING, _ => (0, [SerialMsg.getValOnString])
  | _, _ => (0, [])

/-! ## The object graph -/

/-- A pointer to a `SpanCharacteristic` object: an index into the heap `World.chars`. -/
abbrev CharPtr := Nat

/-- The struct `SpanBuf`, with the default member initialisers of the source
(`status` has none). -/
structure SpanBuf where
  aid : Nat := 0
  iid : Int := 0
  val : Option String := none
  ev : Option String := none
  status : StatusCode
  characteristic : Option CharPtr := none
  deriving DecidableEq, Repr

/-- The struct `SpanService`: the members the embedded code reads or writes. The
vectors of pointers `req` and `opt` hold the catalog entries themselves. -/
structure SpanService where
  iid : Int := 0
  type : String
  hapName : String
  hidden : Bool := false
  primary : Bool := false
  Characteristics : List CharPtr
  req : List HapChar
  opt : List HapChar
  deriving DecidableEq, Repr

/-- The struct `SpanAccessory`; the vector of pointers `Services` holds the
Services themselves (each Service belongs to one Accessory). -/
structure SpanAccessory where
  aid : Nat := 0
  iidCount : Int := 0
  Services : List SpanService
  deriving DecidableEq, Repr

/-- Modelled from the spec: the persistent key-value store behind the handle
`homeSpan.charNVS` (the functions of `nvs.h` are not among the sources): blobs
keyed by string. A blob written by the code is the `sizeof(UVal)` bytes of a cell. -/
abbrev NVS (D : Type) := String → Option (UVal D)

/-- Modelled from the spec: `nvs_get_blob` (of `nvs.h`, not among the sources):
`some blob` when it returns 0 (the key holds a blob), `none` when it returns an
error code. -/
def nvs_get_blob {D : Type} (nvs : NVS D) (key : String) : Option (UVal D) := nvs key

/-- Modelled from the spec: `nvs_set_blob` followed by `nvs_commit` (of `nvs.h`,
not among the sources): the key holds the blob afterwards, every other key is
as before. The write is taken to succeed (the code ignores its return code). -/
def nvs_set_blob {D : Type} (nvs : NVS D) (key : String) (blob : UVal D) : NVS D :=
  fun k => if k = key then some blob else nvs k

/-- The struct `Span` (the global `homeSpan`): the members the embedded code
reads or writes. -/
structure Span (D : Type) where
  snapTime : Nat
  nFatalErrors : Int := 0
  nWarnings : Int := 0
  charNVS : NVS D
  Accessories : List SpanAccessory
  Notifications : List SpanBuf

/-- The struct `SpanCharacteristic`: the data members the embedded code reads
or writes. -/
structure SpanCharacteristic (D : Type) where
  iid : Int := 0
  type : String
  hapName : String
  value : UVal D
  perms : Nat
  format : FORMAT
  minValue : UVal D
  maxValue : UVal D
  stepValue : UVal D
  staticRange : Bool
  customRange : Bool := false
  nvsKey : Option String := none
  aid : Nat := 0
  isUpdated : Bool := false
  updateTime : Nat := 0
  newValue : UVal D

/-- The program state: the global `homeSpan`, the heap of Characteristic
objects, and what has been printed to `Serial` (oldest first). -/
structure World (D : Type) where
  homeSpan : Span D
  chars : CharPtr → SpanCharacteristic D
  Serial : List SerialMsg

/-! ## The persistence key -/

/-- The value of a hexadecimal digit, as `sscanf` reads it. -/
def hexVal (c : Char) : Option Nat :=
  if 48 ≤ c.toNat ∧ c.toNat ≤ 57 then some (c.toNat - 48)
  else if 65 ≤ c.toNat ∧ c.toNat ≤ 70 then some (c.toNat - 55)
  else if 97 ≤ c.toNat ∧ c.toNat ≤ 102 then some (c.toNat - 87)
  else none

/-- The digits loop of the conversion `%x`: reads hexadecimal digits up to the
first character that is not one. -/
def scanHex : List Char → Nat → Nat
  | [], acc => acc
  | c :: cs, acc =>
    match hexVal c with
    | some d => scanHex cs (acc * 16 + d)
    | none => acc

/-- The call `sscanf(type,"%x",&t)` with `uint16_t t`: the leading hexadecimal
digits of `type`, of which `t` keeps the low 16 bits. (Leading white space, a
sign and a `0x` prefix, which `%x` also accepts, are not represented, and a
`type` without a leading digit, for which the code leaves `t` unset, reads as 0.) -/
def sscanf_x (type : String) : Nat := scanHex type.toList 0 % 2 ^ 16

/-- The upper-case hexadecimal digit of value `d`. -/
def hexChar (d : Nat) : Char :=
  if d < 10 then Char.ofNat (48 + d) else Char.ofNat (55 + d)

/-- The `k` low hexadecimal digits of `n`, most significant first. -/
def hexDigits : Nat → Nat → List Char
  | 0, _ => []
  | k + 1, n => hexDigits k (n / 16) ++ [hexChar (n % 16)]

/-- The number of hexadecimal digits of `n` (one for 0), counted up to `fuel + 1`. -/
def hexLen : Nat → Nat → Nat
  | 0, _ => 1
  | fuel + 1, n => if n < 16 then 1 else 1 + hexLen fuel (n / 16)

/-- The conversion `%0wX` of `sprintf` on an `unsigned int` (32 bits, so at most
8 digits): upper-case hexadecimal, padded with zeros to at least `w` characters. -/
def sprintf_0X (w : Nat) (n : Nat) : List Char := hexDigits (max w (hexLen 7 n)) n

/-- The call `sprintf(nvsKey,"%04X%08X%03X",t,aid,iid&0xFFF)`. On the two's
complement `int iid`, `iid & 0xFFF` is `iid` modulo 4096. -/
def nvsKeyOf (t : Nat) (aid : Nat) (iid : Int) : String :=
  String.mk (sprintf_0X 4 t ++ sprintf_0X 8 aid ++ sprintf_0X 3 (iid % 4096).toNat)

/-! ## Member functions of `SpanCharacteristic` -/

/-- The member `getString()`. -/
def getString {D : Type} (this : CharPtr) (w : World D) : Option String :=
  if (w.chars this).format = FORMAT.STRING then
    match (w.chars this).value with
    | .STRING s => s
    | _ => none
  else none

/-- The member `getNewString()`. -/
def getNewString {D : Type} (this : CharPtr) (w : World D) : Option String :=
  if (w.chars this).format = FORMAT.STRING then
    match (w.chars this).newValue with
    | .STRING s => s
    | _ => none
  else none

/-- The template `setRange(min,max,step)`; the second component is the returned
pointer. -/
def setRange {D : Type} (F : DoubleOps D) (min max step : Int) (this : CharPtr)
    (w : World D) : World D × CharPtr :=
  let c := w.chars this
  if c.customRange then
    ({ w with homeSpan := { w.homeSpan with nFatalErrors := w.homeSpan.nFatalErrors + 1 } }, this)
  else if c.staticRange then
    ({ w with homeSpan := { w.homeSpan with nFatalErrors := w.homeSpan.nFatalErrors + 1 } }, this)
  else
    let c1 := { c with
      minValue := uvSet F c.format c.minValue min
      maxValue := uvSet F c.format c.maxValue max
      stepValue := uvSet F c.format c.stepValue step
      customRange := true }
    ({ w with chars := Function.update w.chars this c1 }, this)

/-- The Service `homeSpan.Accessories.back()->Services.back()`, when there is one. -/
def backService {D : Type} (hs : Span D) : Option SpanService :=
  match hs.Accessories.getLast? with
  | some a => a.Services.getLast?
  | none => none

/-- Applies `f` to the last element of a list (`back()` as an lvalue). -/
def modifyBack {α : Type} (f : α → α) : List α → List α
  | [] => []
  | [a] => [f a]
  | a :: b :: l => a :: modifyBack f (b :: l)

/-- The statement `svc->Characteristics.push_back(p)`. -/
def SpanService.push (p : CharPtr) (s : SpanService) : SpanService :=
  { s with Characteristics := s.Characteristics ++ [p] }

/-- The statement `acc->Services.back()->Characteristics.push_back(p)`. -/
def SpanAccessory.push (p : CharPtr) (a : SpanAccessory) : SpanAccessory :=
  { a with Services := modifyBack (SpanService.push p) a.Services }

/-- The statement `homeSpan.Accessories.back()->Services.back()->Characteristics.push_back(p)`. -/
def pushCharacteristic {D : Type} (p : CharPtr) (hs : Span D) : Span D :=
  { hs with Accessories := modifyBack (SpanAccessory.push p) hs.Accessories }

/-- The two loops of `init` over `req` and `opt`: some catalog entry has this type. -/
def inCatalog (type : String) (svc : SpanService) : Bool :=
  (svc.req.any fun h => decide (type = h.type)) || (svc.opt.any fun h => decide (type = h.type))

/-- The third loop of `init`: some Characteristic of the Service has this type. -/
def isRepeated {D : Type} (type : String) (svc : SpanService) (chars : CharPtr → SpanCharacteristic D) :
    Bool :=
  svc.Characteristics.any fun p => decide (type = (chars p).type)

/-- The template `init(val,nvsStore,min,max)`. Without a last Service (where the
code calls `back()` on an empty vector) the three loops find nothing and nothing
is pushed. -/
def init {D : Type} (F : DoubleOps D) (val : Int) (nvsStore : Bool) (min max : Int)
    (this : CharPtr) (w : World D) : World D :=
  let c := w.chars this
  let c1 := { c with
    value := uvSet F c.format c.value val
    newValue := uvSet F c.format c.newValue val }
  let c2 :=
    if c1.format ≠ FORMAT.STRING then
      { c1 with
        minValue := uvSet F c1.format c1.minValue min
        maxValue := uvSet F c1.format c1.maxValue max
        stepValue := uvSet F c1.format c1.stepValue 0 }
    else c1
  let stored : SpanCharacteristic D × NVS D :=
    if nvsStore then
      let key := nvsKeyOf (sscanf_x c2.type) c2.aid c2.iid
      match nvs_get_blob w.homeSpan.charNVS key with
      | some blob => ({ c2 with nvsKey := some key, value := blob, newValue := blob },
          w.homeSpan.charNVS)
      | none => ({ c2 with nvsKey := some key }, nvs_set_blob w.homeSpan.charNVS key c2.value)
    else (c2, w.homeSpan.charNVS)
  let svc : SpanService := (backService w.homeSpan).getD
    { type := "", hapName := "", Characteristics := [], req := [], opt := [] }
  let valid := inCatalog c.type svc
  let n1 := if !valid then w.homeSpan.nFatalErrors + 1 else w.homeSpan.nFatalErrors
  let repeated := isRepeated c.type svc w.chars
  let n2 := if valid && repeated then n1 + 1 else n1
  { homeSpan := pushCharacteristic this
      { w.homeSpan with charNVS := stored.2, nFatalErrors := n2 }
    chars := Function.update w.chars this stored.1
    Serial := w.Serial }

/-- The template `getVal<T>()`: the returned value and the state afterwards. -/
def getVal {D : Type} (F : DoubleOps D) (T : CType) (this : CharPtr) (w : World D) :
    Int × World D :=
  let r := uvGet F T (w.chars this).format (w.chars this).value
  (r.1, { w with Serial := w.Serial ++ r.2 })

/-- The template `getNewVal<T>()`: the returned value and the state afterwards. -/
def getNewVal {D : Type} (F : DoubleOps D) (T : CType) (this : CharPtr) (w : World D) :
    Int × World D :=
  let r := uvGet F T (w.chars this).format (w.chars this).newValue
  (r.1, { w with Serial := w.Serial ++ r.2 })

/-- The template `setVal(T val)`. `PW` is the write permission bit of
`Characteristics.h` (not among the sources). In the first condition `==` binds
tighter than `&`, so it reads `perms & (PW == 0)`. In the second, `uvGet` is
only reached when the format is not `STRING`, where it prints nothing. -/
def setVal {D : Type} (F : DoubleOps D) (PW : Nat) (T : CType) (val : Int) (this : CharPtr)
    (w : World D) : World D :=
  let c := w.chars this
  if c.format = FORMAT.STRING ∧ c.perms &&& (if PW = 0 then 1 else 0) ≠ 0 then
    { w with Serial := w.Serial ++ [SerialMsg.setValIgnored] }
  else
    let Serial1 :=
      if c.format ≠ FORMAT.STRING ∧
          (val < (uvGet F T c.format c.minValue).1 ∨ val > (uvGet F T c.format c.maxValue).1) then
        w.Serial ++ [SerialMsg.setValOutOfRange]
      else w.Serial
    let c1 := { c with
      value := uvSet F c.format c.value val
      newValue := uvSet F c.format c.newValue val
      updateTime := w.homeSpan.snapTime }
    let sb : SpanBuf := { characteristic := some this, status := StatusCode.OK, val := some "" }
    let hs1 := { w.homeSpan with Notifications := w.homeSpan.Notifications ++ [sb] }
    let hs2 :=
      match c1.nvsKey with
      | some key => { hs1 with charNVS := nvs_set_blob hs1.charNVS key c1.value }
      | none => hs1
    { homeSpan := hs2, chars := Function.update w.chars this c1, Serial := Serial1 }

/-! ## The canonical-text renderer -/

/-- The decimal digit of value `d`. -/
def decChar (d : Nat) : Char := Char.ofNat (48 + d)

/-- The decimal digits of `n`, most significant first, at most `fuel` of them. -/
def decDigits : Nat → Nat → List Char
  | 0, _ => []
  | fuel + 1, n =>
    if n < 10 then [decChar n] else decDigits fuel (n / 10) ++ [decChar (n % 10)]

/-- Modelled from the spec: the decimal text of an integer, as the constructors
`String(int)`, `String(unsigned int)`, `String(unsigned char)` of the Arduino
core (not among the sources) and the conversion `%llu` produce it: integers
render in decimal, a negative one with a leading minus sign. -/
def decimal (v : Int) : String :=
  if v < 0 then String.mk ('-' :: decDigits (v.natAbs + 1) v.natAbs)
  else String.mk (decDigits (v.natAbs + 1) v.natAbs)

/-- The effect of `sprintf(c,...)` on the local buffer `char c[size]` when the
formatted text is `text` (one `char` per character): the text and its null
terminator are written, which stays inside the buffer only when they take at
most `size` bytes; `none` is a write past the end of the buffer. -/
def sprintfInto (size : Nat) (text : String) : Option String :=
  if text.length + 1 ≤ size then some text else none

/-- The member `uvPrint(UVal &u)`. `g` is the conversion `%llg` of a double, not
interpreted. The result is `none` where the call is undefined: a write past the
end of `c`, the null pointer passed to `%s`, or a cell whose member is not the
one selected by the tag. -/
def uvPrint {D : Type} (g : D → String) (format : FORMAT) (u : UVal D) : Option String :=
  match format, u with
  | .BOOL, .BOOL b => some (decimal (if b then 1 else 0))
  | .INT, .INT v => some (decimal v)
  | .UINT8, .UINT8 v => some (decimal v)
  | .UINT16, .UINT16 v => some (decimal v)
  | .UINT32, .UINT32 v => some (decimal v)
  | .UINT64, .UINT64 v => sprintfInto 64 (decimal v)
  | .FLOAT, .FLOAT d => sprintfInto 64 (g d)
  | .STRING, .STRING (some s) => sprintfInto 64 ("\"" ++ s ++ "\"")
  | _, _ => none

/-! ## Specification-level notions -/

/-- The representation of the integer `val` in a cell of numeric format
`format` (for `STRING`, which has none, the null string cell). -/
def convert {D : Type} (F : DoubleOps D) (format : FORMAT) (val : Int) : UVal D :=
  match format with
  | .BOOL => .BOOL (decide (val ≠ 0))
  | .INT => .INT (toSigned 32 val)
  | .UINT8 => .UINT8 (val % 2 ^ 8)
  | .UINT16 => .UINT16 (val % 2 ^ 16)
  | .UINT32 => .UINT32 (val % 2 ^ 32)
  | .UINT64 => .UINT64 (val % 2 ^ 64)
  | .FLOAT => .FLOAT (F.ofInt val)
  | .STRING => .STRING none

/-- The integer held by a cell of an integer format (`BOOL` counts as 0 or 1);
0 for the two members that hold no integer. -/
def UVal.toInt {D : Type} : UVal D → Int
  | .BOOL b => if b then 1 else 0
  | .UINT8 v => v
  | .UINT16 v => v
  | .UINT32 v => v
  | .UINT64 v => v
  | .INT v => v
  | .FLOAT _ => 0
  | .STRING _ => 0

/-- The content of a numeric cell converted to the requested type `T`. -/
def UVal.readAs {D : Type} (F : DoubleOps D) (T : CType) : UVal D → Int
  | .FLOAT d => F.toInt T d
  | .STRING _ => 0
  | u => T.cast u.toInt

/-- The C type of the union member an integer format selects. -/
def FORMAT.ctype? : FORMAT → Option CType
  | .BOOL => some .bool
  | .UINT8 => some .uint8
  | .UINT16 => some .uint16
  | .UINT32 => some .uint32
  | .UINT64 => some .uint64
  | .INT => some .int32
  | .FLOAT => none
  | .STRING => none

/-- The persistence key `init` derives for a Characteristic from its type,
Accessory id and instance id. -/
def SpanCharacteristic.derivedKey {D : Type} (c : SpanCharacteristic D) : String :=
  nvsKeyOf (sscanf_x c.type) c.aid c.iid

/-- The order `a <= b` of two cells holding the same member (false when the
members differ or hold strings). -/
def UVal.le {D : Type} (F : DoubleOps D) : UVal D → UVal D → Bool
  | .BOOL a, .BOOL b => !a || b
  | .UINT8 a, .UINT8 b => decide (a ≤ b)
  | .UINT16 a, .UINT16 b => decide (a ≤ b)
  | .UINT32 a, .UINT32 b => decide (a ≤ b)
  | .UINT64 a, .UINT64 b => decide (a ≤ b)
  | .INT a, .INT b => decide (a ≤ b)
  | .FLOAT a, .FLOAT b => F.le a b
  | _, _ => false

/-- The cell `v` lies within the bounds: `lo <= v` and `v <= hi`. -/
def UVal.within {D : Type} (F : DoubleOps D) (lo hi v : UVal D) : Prop :=
  UVal.le F lo v = true ∧ UVal.le F v hi = true

instance {D : Type} (F : DoubleOps D) (lo hi v : UVal D) : Decidable (UVal.within F lo hi v) := by
  unfold UVal.within; infer_instance

/-- The invariant of the data model: for a numeric format, the current and the
pending value both satisfy `min <= v <= max`. -/
def SpanCharacteristic.inBounds {D : Type} (F : DoubleOps D) (c : SpanCharacteristic D) : Prop :=
  c.format ≠ FORMAT.STRING →
    UVal.within F c.minValue c.maxValue c.value ∧ UVal.within F c.minValue c.maxValue c.newValue

instance {D : Type} (F : DoubleOps D) (c : SpanCharacteristic D) : Decidable (c.inBounds F) := by
  unfold SpanCharacteristic.inBounds; infer_instance

/-- The arguments of one call of `init`, with the object it is called on. -/
structure InitCall where
  val : Int
  nvsStore : Bool
  min : Int
  max : Int
  this : CharPtr
  deriving DecidableEq, Repr

/-- A sequence of `init` calls, run in order. -/
def runInits {D : Type} (F : DoubleOps D) (calls : List InitCall) (w : World D) : World D :=
  calls.foldl (fun st c => init F c.val c.nvsStore c.min c.max c.this st) w

/-- The type appears in the Service's required-or-optional catalog. -/
def SpanService.supports (svc : SpanService) (type : String) : Prop :=
  ∃ h ∈ svc.req ++ svc.opt, h.type = type

/-- The types of the Characteristics of a Service, in order. -/
def SpanService.typesOf {D : Type} (svc : SpanService) (chars : CharPtr → SpanCharacteristic D) :
    List String :=
  svc.Characteristics.map fun p => (chars p).type

/-- The invariant of the data model on a Service: every Characteristic has a
type of the catalog, and no two Characteristics have the same type. -/
def SpanService.wellTyped {D : Type} (svc : SpanService) (chars : CharPtr → SpanCharacteristic D) :
    Prop :=
  (∀ p ∈ svc.Characteristics, svc.supports (chars p).type) ∧ (svc.typesOf chars).Nodup

/-- The number a list of decimal digits denotes. -/
def decValue (ds : List Char) : Nat :=
  ds.foldl (fun acc c => acc * 10 + (c.toNat - 48)) 0

/-- The integer a decimal numeral denotes: an optional minus sign, then digits. -/
def decimalValue (s : String) : Int :=
  match s.toList with
  | '-' :: ds => -(decValue ds : Int)
  | ds => (decValue ds : Int)

/-! ## Concrete states used to evaluate the definitions -/

/-- A Characteristic of type "25" at aid 1, iid 5, with the given format, cells
and bounds, all three permission bits, no custom range and no persistence key. -/
def demoChar (format : FORMAT) (cell lo hi : UVal Int) : SpanCharacteristic Int :=
  { iid := 5, type := "25", hapName := "On", value := cell, perms := 7, format := format,
    minValue := lo, maxValue := hi, stepValue := cell, staticRange := false, aid := 1,
    newValue := cell }

/-- A Service whose catalog requires type "25" and allows type "23". -/
def demoService : SpanService :=
  { type := "49", hapName := "Switch", Characteristics := [],
    req := [{ type := "25" }], opt := [{ type := "23" }] }

/-- A state with one Accessory holding `demoService`, an empty store, an empty
notification queue, and the object `c` at every address. -/
def demoWorld (c : SpanCharacteristic Int) : World Int :=
  { homeSpan :=
      { snapTime := 1000, charNVS := fun _ => none,
        Accessories := [{ aid := 1, Services := [demoService] }], Notifications := [] }
    chars := fun _ => c
    Serial := [] }

/-- The state `demoWorld` around a `UINT32` Characteristic holding 0 with bounds [0,100]. -/
def demoU32 : World Int :=
  demoWorld (demoChar .UINT32 (.UINT32 0) (.UINT32 0) (.UINT32 100))

/-- The state `demoWorld` around a `UINT8` Characteristic holding 50 with bounds [0,100]. -/
def demoU8 : World Int :=
  demoWorld (demoChar .UINT8 (.UINT8 50) (.UINT8 0) (.UINT8 100))

/-- The state `demoU8` in which the Characteristic has the persistence key "K". -/
def demoU8Keyed : World Int :=
  demoWorld { demoChar .UINT8 (.UINT8 50) (.UINT8 0) (.UINT8 100) with nvsKey := some "K" }

/-- The state after a restart of `demoU8`: the objects are as declared, the
store is the one left by `init(50,true,0,100)` followed by `setVal(7)`. -/
def demoRestart : World Int :=
  { demoU8 with homeSpan := { demoU8.homeSpan with
      charNVS := (setVal exactDoubles 2 CType.int32 7 0
        (init exactDoubles 50 true 0 100 0 demoU8)).homeSpan.charNVS } }

/-- The state `demoWorld` with a Characteristic of type "25" at address 0, one of
type "23" at address 1 and one of type "99" (not in the catalog) elsewhere. -/
def demoThree : World Int :=
  { demoU8 with chars := fun p =>
      if p = 0 then demoU8.chars 0
      else if p = 1 then { demoU8.chars 0 with type := "23" }
      else { demoU8.chars 0 with type := "99" } }

/-- Two `init` calls, on the objects at addresses 0 and 1. -/
def demoCalls : List InitCall :=
  [{ val := 1, nvsStore := false, min := 0, max := 100, this := 0 },
   { val := 2, nvsStore := false, min := 0, max := 100, this := 1 }]

/-- The state `demoWorld` around a `STRING` Characteristic named "Lamp" that has
the read permission only (`perms = 1`) and the persistence key "K". -/
def demoName : World Int :=
  demoWorld { demoChar .STRING (.STRING (some "Lamp")) (.STRING none) (.STRING none) with
    perms := 1, nvsKey := some "K" }

/-- The state `demoWorld` around a `STRING` Characteristic whose cells hold the
null pointer, the default of the union. -/
def demoNull : World Int :=
  demoWorld (demoChar .STRING (.STRING none) (.STRING none) (.STRING none))

/-- The state `demoWorld` around an `INT` Characteristic holding 0 with bounds [-90,90]. -/
def demoTilt : World Int :=
  demoWorld (demoChar .INT (.INT 0) (.INT (-90)) (.INT 90))

/-- The state `demoWorld` around a `UINT32` Characteristic holding 0 with bounds
[0,4294967295]. -/
def demoWide : World Int :=
  demoWorld (demoChar .UINT32 (.UINT32 0) (.UINT32 0) (.UINT32 4294967295))

/-- A text of 61 characters. -/
def text61 : String := String.mk (List.replicate 61 'a')

/-- A text of 62 characters. -/
def text62 : String := String.mk (List.replicate 62 'a')

/-! ## Lemmas on conversions -/

theorem toUnsigned_idem (w : Nat) (v : Int) : toUnsigned w (toUnsigned w v) = toUnsigned w v := by
  unfold toUnsigned
  exact Int.emod_emod_of_dvd v (dvd_refl _)

theorem toSigned_idem (w : Nat) (v : Int) : toSigned w (toSigned w v) = toSigned w v := by
  unfold toSigned
  simp [Int.emod_emod_of_dvd]

theorem uvSet_eq_convert {D : Type} (F : DoubleOps D) (format : FORMAT) (u : UVal D) (val : Int)
    (h : format ≠ FORMAT.STRING) : uvSet F format u val = convert F format val := by
  cases format <;> simp_all [uvSet, convert, CType.cast, toUnsigned]

theorem uvGet_convert {D : Type} (F : DoubleOps D) (T : CType) (format : FORMAT) (val : Int)
    (h : format ≠ FORMAT.STRING) :
    (uvGet F T format (convert F format val)).1 = (convert F format val).readAs F T := by
  cases format <;> simp_all [uvGet, convert, UVal.readAs, UVal.toInt]

theorem ctype_holds_convert {D : Type} (F : DoubleOps D) (format : FORMAT) (T : CType) (val : Int)
    (h : format.ctype? = some T) : T.holds (convert F format val).toInt := by
  cases format <;> simp [FORMAT.ctype?] at h <;> subst h
  · by_cases hv : val = 0 <;> simp [CType.holds, convert, UVal.toInt, CType.cast, hv]
  · exact toUnsigned_idem 8 val
  · exact toUnsigned_idem 16 val
  · exact toUnsigned_idem 32 val
  · exact toUnsigned_idem 64 val
  · exact toSigned_idem 32 val

/-! ## Lemmas on `setVal` -/

theorem setVal_chars_this {D : Type} (F : DoubleOps D) (PW : Nat) (T : CType) (val : Int)
    (this : CharPtr) (w : World D) (h : (w.chars this).format ≠ FORMAT.STRING) :
    (setVal F PW T val this w).chars this =
      { w.chars this with
        value := convert F (w.chars this).format val
        newValue := convert F (w.chars this).format val
        updateTime := w.homeSpan.snapTime } := by
  simp [setVal, h, uvSet_eq_convert]

theorem setVal_homeSpan {D : Type} (F : DoubleOps D) (PW : Nat) (T : CType) (val : Int)
    (this : CharPtr) (w : World D)
    (h : (w.chars this).format = FORMAT.STRING → PW ≠ 0) :
    (setVal F PW T val this w).homeSpan =
      match (w.chars this).nvsKey with
      | some key =>
        { w.homeSpan with
          Notifications := w.homeSpan.Notifications ++
            [{ characteristic := some this, status := StatusCode.OK, val := some "" }]
          charNVS := nvs_set_blob w.homeSpan.charNVS key
            (uvSet F (w.chars this).format (w.chars this).value val) }
      | none =>
        { w.homeSpan with
          Notifications := w.homeSpan.Notifications ++
            [{ characteristic := some this, status := StatusCode.OK, val := some "" }] } := by
  have hcond : ¬ ((w.chars this).format = FORMAT.STRING ∧
      (w.chars this).perms &&& (if PW = 0 then 1 else 0) ≠ 0) := by
    rintro ⟨hs, hp⟩
    have := h hs
    simp [this] at hp
  unfold setVal
  simp only [hcond, if_false]

theorem setVal_value {D : Type} (F : DoubleOps D) (PW : Nat) (T : CType) (val : Int)
    (this : CharPtr) (w : World D)
    (h : (w.chars this).format = FORMAT.STRING → PW ≠ 0) :
    ((setVal F PW T val this w).chars this).value =
      uvSet F (w.chars this).format (w.chars this).value val := by
  have hcond : ¬ ((w.chars this).format = FORMAT.STRING ∧
      (w.chars this).perms &&& (if PW = 0 then 1 else 0) ≠ 0) := by
    rintro ⟨hs, hp⟩
    have := h hs
    simp [this] at hp
  unfold setVal
  simp only [hcond, if_false, Function.update_same]

/-! ## C1: `setVal` applies the change -/

/-- C1 (counterexample): on a `UINT32` Characteristic, after `setVal(-1)` the
getter at its default type, `getVal<int>()`, returns -1, which is not
`val mod 2^32` (that is 4294967295). -/
theorem setVal_getVal_default_counterexample :
    (getVal exactDoubles CType.int32 0 (setVal exactDoubles 2 CType.int32 (-1) 0 demoU32)).1 = -1 ∧
    (-1 : Int) % 2 ^ 32 = 4294967295 ∧
    (getVal exactDoubles CType.int32 0 (setVal exactDoubles 2 CType.int32 (-1) 0 demoU32)).1 ≠
      (-1 : Int) % 2 ^ 32 := by
  decide

/-- C1 (amended): for every numeric-format Characteristic and every integer
`val`, in range or not, after `setVal(val)` the current and the pending cell
both hold `val` converted to the format's representation, `updateTime` equals
`homeSpan.snapTime`, and `getVal<T>()` and `getNewVal<T>()` return the stored
value converted to the requested type `T`: the stored value itself whenever `T`
can represent it, in particular when `T` is the type of the format's member. -/
theorem setVal_applies {D : Type} (F : DoubleOps D) (PW : Nat) (T : CType) (val : Int)
    (this : CharPtr) (w : World D) (h : (w.chars this).format ≠ FORMAT.STRING) :
    ((setVal F PW T val this w).chars this).value = convert F (w.chars this).format val ∧
    ((setVal F PW T val this w).chars this).newValue = convert F (w.chars this).format val ∧
    ((setVal F PW T val this w).chars this).updateTime = w.homeSpan.snapTime ∧
    (∀ R : CType,
      (getVal F R this (setVal F PW T val this w)).1 =
          (convert F (w.chars this).format val).readAs F R ∧
      (getNewVal F R this (setVal F PW T val this w)).1 =
          (convert F (w.chars this).format val).readAs F R) ∧
    (∀ R : CType, (w.chars this).format ≠ FORMAT.FLOAT →
      R.holds (convert F (w.chars this).format val).toInt →
      (getVal F R this (setVal F PW T val this w)).1 =
          (convert F (w.chars this).format val).toInt ∧
      (getNewVal F R this (setVal F PW T val this w)).1 =
          (convert F (w.chars this).format val).toInt) ∧
    (∀ R : CType, (w.chars this).format.ctype? = some R →
      (getVal F R this (setVal F PW T val this w)).1 =
          (convert F (w.chars this).format val).toInt ∧
      (getNewVal F R this (setVal F PW T val this w)).1 =
          (convert F (w.chars this).format val).toInt) := by
  have hc := setVal_chars_this F PW T val this w h
  have hget : ∀ R : CType,
      (getVal F R this (setVal F PW T val this w)).1 =
          (convert F (w.chars this).format val).readAs F R ∧
      (getNewVal F R this (setVal F PW T val this w)).1 =
          (convert F (w.chars this).format val).readAs F R := by
    intro R
    simp only [getVal, getNewVal, hc]
    exact ⟨uvGet_convert F R _ val h, uvGet_convert F R _ val h⟩
  have hread : ∀ R : CType, (w.chars this).format ≠ FORMAT.FLOAT →
      R.holds (convert F (w.chars this).format val).toInt →
      (convert F (w.chars this).format val).readAs F R =
        (convert F (w.chars this).format val).toInt := by
    intro R hf hR
    unfold CType.holds at hR
    revert hR hf h
    cases (w.chars this).format <;> simp [convert, UVal.readAs, UVal.toInt]
  refine ⟨by rw [hc], by rw [hc], by rw [hc], hget, ?_, ?_⟩
  · intro R hf hR
    rw [(hget R).1, (hget R).2, hread R hf hR]
    exact ⟨rfl, rfl⟩
  · intro R hR
    have hf : (w.chars this).format ≠ FORMAT.FLOAT := by
      intro hf
      rw [hf] at hR
      simp [FORMAT.ctype?] at hR
    rw [(hget R).1, (hget R).2, hread R hf (ctype_holds_convert F _ R val hR)]
    exact ⟨rfl, rfl⟩

/-- C1 (witness): `setVal_applies` at `setVal(-1)` on the `UINT32` Characteristic
of `demoU32`, where the value is out of the range [0,100]. -/
theorem setVal_applies_witness :
    (demoU32.chars 0).format ≠ FORMAT.STRING ∧
    ((setVal exactDoubles 2 CType.int32 (-1) 0 demoU32).chars 0).value = UVal.UINT32 4294967295 ∧
    (getVal exactDoubles CType.uint32 0 (setVal exactDoubles 2 CType.int32 (-1) 0 demoU32)).1 =
      4294967295 :=
  ⟨by decide,
   (setVal_applies exactDoubles 2 CType.int32 (-1) 0 demoU32 (by decide)).1,
   ((setVal_applies exactDoubles 2 CType.int32 (-1) 0 demoU32 (by decide)).2.2.2.2.2
      CType.uint32 rfl).1⟩

/-! ## C2: `setVal` queues one notification record -/

/-- C2: for every numeric-format Characteristic and every `val`, `setVal(val)`
appends exactly one record to the end of `homeSpan.Notifications`: the queue is
the old queue followed by one record, so its length grows by one and every
record already queued keeps its position and content; the new record has
`characteristic` equal to this Characteristic, status `OK`, a non-null `val`
and a null `ev`. -/
theorem setVal_enqueues {D : Type} (F : DoubleOps D) (PW : Nat) (T : CType) (val : Int)
    (this : CharPtr) (w : World D) (h : (w.chars this).format ≠ FORMAT.STRING) :
    ∃ sb : SpanBuf,
      (setVal F PW T val this w).homeSpan.Notifications = w.homeSpan.Notifications ++ [sb] ∧
      sb.characteristic = some this ∧ sb.status = StatusCode.OK ∧ sb.val ≠ none ∧ sb.ev = none ∧
      (setVal F PW T val this w).homeSpan.Notifications.length =
        w.homeSpan.Notifications.length + 1 ∧
      (∀ i : Nat, i < w.homeSpan.Notifications.length →
        (setVal F PW T val this w).homeSpan.Notifications[i]? = w.homeSpan.Notifications[i]?) ∧
      (setVal F PW T val this w).homeSpan.Notifications[w.homeSpan.Notifications.length]? =
        some sb := by
  refine ⟨{ characteristic := some this, status := StatusCode.OK, val := some "" }, ?_⟩
  have hq : (setVal F PW T val this w).homeSpan.Notifications = w.homeSpan.Notifications ++
      [{ characteristic := some this, status := StatusCode.OK, val := some "" }] := by
    rw [setVal_homeSpan F PW T val this w (fun hs => absurd hs h)]
    cases (w.chars this).nvsKey <;> rfl
  refine ⟨hq, rfl, rfl, by simp, rfl, ?_, ?_, ?_⟩
  · rw [hq]; simp
  · intro i hi
    rw [hq, List.getElem?_append_left hi]
  · rw [hq]; simp

/-- C2 (witness): `setVal_enqueues` at `setVal(200)` on the `UINT8` Characteristic
of `demoU8`, whose queue is empty beforehand. -/
theorem setVal_enqueues_witness :
    (demoU8.chars 0).format ≠ FORMAT.STRING ∧
    ∃ sb : SpanBuf,
      (setVal exactDoubles 2 CType.int32 200 0 demoU8).homeSpan.Notifications = [] ++ [sb] ∧
      sb.characteristic = some 0 ∧ sb.status = StatusCode.OK ∧ sb.val ≠ none ∧ sb.ev = none :=
  ⟨by decide,
   (setVal_enqueues exactDoubles 2 CType.int32 200 0 demoU8 (by decide)).elim
     fun sb hsb => ⟨sb, hsb.1, hsb.2.1, hsb.2.2.1, hsb.2.2.2.1, hsb.2.2.2.2.1⟩⟩

/-! ## C3: `setVal` re-writes the persistent store -/

/-- C3: `setVal` re-writes the store before returning. For a Characteristic with
a persistence key, after `setVal(val)` the store holds the new current value
(the cell `value`) under that key and every other key is as before; for a
Characteristic without a key the store is unchanged. (`PW`, the write
permission bit, is a non-zero mask.) -/
theorem setVal_store {D : Type} (F : DoubleOps D) (PW : Nat) (T : CType) (val : Int)
    (this : CharPtr) (w : World D) (hPW : PW ≠ 0) :
    (∀ key : String, (w.chars this).nvsKey = some key →
      (setVal F PW T val this w).homeSpan.charNVS key =
          some ((setVal F PW T val this w).chars this).value ∧
      (∀ k : String, k ≠ key →
        (setVal F PW T val this w).homeSpan.charNVS k = w.homeSpan.charNVS k)) ∧
    ((w.chars this).nvsKey = none →
      (setVal F PW T val this w).homeSpan.charNVS = w.homeSpan.charNVS) ∧
    ((w.chars this).format ≠ FORMAT.STRING →
      ((setVal F PW T val this w).chars this).value = convert F (w.chars this).format val) := by
  have hs := setVal_homeSpan F PW T val this w (fun _ => hPW)
  have hv := setVal_value F PW T val this w (fun _ => hPW)
  refine ⟨?_, ?_, ?_⟩
  · intro key hkey
    rw [hs, hv, hkey]
    refine ⟨by simp [nvs_set_blob], ?_⟩
    intro k hk
    simp [nvs_set_blob, hk]
  · intro hnone
    rw [hs, hnone]
  · intro hf
    rw [hv, uvSet_eq_convert F _ _ val hf]

/-- C3 (witness): `setVal_store` at `setVal(7)` on the Characteristic of
`demoU8Keyed`, whose persistence key is "K". -/
theorem setVal_store_witness :
    (2 : Nat) ≠ 0 ∧ (demoU8Keyed.chars 0).nvsKey = some "K" ∧
    (setVal exactDoubles 2 CType.int32 7 0 demoU8Keyed).homeSpan.charNVS "K" =
      some (UVal.UINT8 7) ∧
    (setVal exactDoubles 2 CType.int32 7 0 demoU8Keyed).homeSpan.charNVS "L" = none :=
  ⟨by decide, rfl,
   (((setVal_store exactDoubles 2 CType.int32 7 0 demoU8Keyed (by decide)).1 "K" rfl).1).trans
     (by decide),
   (((setVal_store exactDoubles 2 CType.int32 7 0 demoU8Keyed (by decide)).1 "K" rfl).2 "L"
     (by decide)).trans rfl⟩

/-! ## Lemmas on `init` -/

theorem init_charNVS_false {D : Type} (F : DoubleOps D) (val min max : Int) (this : CharPtr)
    (w : World D) : (init F val false min max this w).homeSpan.charNVS = w.homeSpan.charNVS := by
  simp [init, pushCharacteristic]

theorem init_chars_false {D : Type} (F : DoubleOps D) (val min max : Int) (this : CharPtr)
    (w : World D) :
    ((init F val false min max this w).chars this).value =
        uvSet F (w.chars this).format (w.chars this).value val ∧
    ((init F val false min max this w).chars this).newValue =
        uvSet F (w.chars this).format (w.chars this).newValue val ∧
    ((init F val false min max this w).chars this).nvsKey = (w.chars this).nvsKey := by
  by_cases hf : (w.chars this).format = FORMAT.STRING <;> simp [init, hf]

theorem init_first {D : Type} (F : DoubleOps D) (val min max : Int) (this : CharPtr)
    (w : World D) (hnone : w.homeSpan.charNVS (w.chars this).derivedKey = none) :
    (init F val true min max this w).homeSpan.charNVS =
        nvs_set_blob w.homeSpan.charNVS (w.chars this).derivedKey
          (uvSet F (w.chars this).format (w.chars this).value val) ∧
    ((init F val true min max this w).chars this).value =
        uvSet F (w.chars this).format (w.chars this).value val ∧
    ((init F val true min max this w).chars this).newValue =
        uvSet F (w.chars this).format (w.chars this).newValue val ∧
    ((init F val true min max this w).chars this).nvsKey = some (w.chars this).derivedKey := by
  unfold SpanCharacteristic.derivedKey at hnone ⊢
  by_cases hf : (w.chars this).format = FORMAT.STRING <;>
    simp [init, hf, nvs_get_blob, hnone, pushCharacteristic]

theorem init_restore {D : Type} (F : DoubleOps D) (val min max : Int) (this : CharPtr)
    (w : World D) (blob : UVal D)
    (hsome : w.homeSpan.charNVS (w.chars this).derivedKey = some blob) :
    (init F val true min max this w).homeSpan.charNVS = w.homeSpan.charNVS ∧
    ((init F val true min max this w).chars this).value = blob ∧
    ((init F val true min max this w).chars this).newValue = blob ∧
    ((init F val true min max this w).chars this).nvsKey = some (w.chars this).derivedKey := by
  unfold SpanCharacteristic.derivedKey at hsome ⊢
  by_cases hf : (w.chars this).format = FORMAT.STRING <;>
    simp [init, hf, nvs_get_blob, hsome, pushCharacteristic]

theorem init_identity {D : Type} (F : DoubleOps D) (val : Int) (nvsStore : Bool) (min max : Int)
    (this : CharPtr) (w : World D) (p : CharPtr) :
    ((init F val nvsStore min max this w).chars p).type = (w.chars p).type ∧
    ((init F val nvsStore min max this w).chars p).format = (w.chars p).format ∧
    ((init F val nvsStore min max this w).chars p).aid = (w.chars p).aid ∧
    ((init F val nvsStore min max this w).chars p).iid = (w.chars p).iid := by
  by_cases hp : p = this
  · subst hp
    by_cases hf : (w.chars p).format = FORMAT.STRING <;> cases nvsStore <;>
      simp [init, hf] <;>
      cases hb : nvs_get_blob w.homeSpan.charNVS
        (nvsKeyOf (sscanf_x (w.chars p).type) (w.chars p).aid (w.chars p).iid) <;> simp
  · simp [init, Function.update_noteq hp]

/-! ## C4: a persisted value survives a restart -/

/-- C4: for every numeric-format Characteristic created by `init` with
`nvsStore=true` and every `val`, after `setVal(val)`, running `init` with
`nvsStore=true` for a Characteristic with the same type, aid and iid against
the resulting store, with any declared default, bounds and prior cell content,
yields current value and pending value both equal to the value `setVal`
committed (`val` converted to the format), not the declared default. -/
theorem persisted_value_survives_restart {D : Type} (F : DoubleOps D) (PW : Nat) (T : CType)
    (val v0 min0 max0 v1 min1 max1 : Int) (this : CharPtr) (w : World D)
    (this2 : CharPtr) (wr : World D)
    (hfmt : (w.chars this).format ≠ FORMAT.STRING)
    (hstore : wr.homeSpan.charNVS =
      (setVal F PW T val this (init F v0 true min0 max0 this w)).homeSpan.charNVS)
    (htype : (wr.chars this2).type = (w.chars this).type)
    (haid : (wr.chars this2).aid = (w.chars this).aid)
    (hiid : (wr.chars this2).iid = (w.chars this).iid) :
    ((setVal F PW T val this (init F v0 true min0 max0 this w)).chars this).value =
        convert F (w.chars this).format val ∧
    ((init F v1 true min1 max1 this2 wr).chars this2).value =
        convert F (w.chars this).format val ∧
    ((init F v1 true min1 max1 this2 wr).chars this2).newValue =
        convert F (w.chars this).format val := by
  have hid := init_identity F v0 true min0 max0 this w this
  have hfmt1 : ((init F v0 true min0 max0 this w).chars this).format ≠ FORMAT.STRING := by
    rw [hid.2.1]; exact hfmt
  have hkey1 : ((init F v0 true min0 max0 this w).chars this).nvsKey =
      some (w.chars this).derivedKey := by
    cases hb : w.homeSpan.charNVS (w.chars this).derivedKey with
    | none => exact (init_first F v0 min0 max0 this w hb).2.2.2
    | some blob => exact (init_restore F v0 min0 max0 this w blob hb).2.2.2
  have hval : ((setVal F PW T val this (init F v0 true min0 max0 this w)).chars this).value =
      convert F (w.chars this).format val := by
    rw [setVal_chars_this F PW T val this _ hfmt1, hid.2.1]
  have hblob : wr.homeSpan.charNVS (wr.chars this2).derivedKey =
      some (convert F (w.chars this).format val) := by
    have hk : (wr.chars this2).derivedKey = (w.chars this).derivedKey := by
      simp [SpanCharacteristic.derivedKey, htype, haid, hiid]
    rw [hstore, hk,
      setVal_homeSpan F PW T val this _ (fun hs => absurd hs hfmt1), hkey1]
    simp only [nvs_set_blob, if_true, hid.2.1]
    rw [uvSet_eq_convert F _ _ val hfmt]
  have hr := init_restore F v1 min1 max1 this2 wr _ hblob
  exact ⟨hval, hr.2.1, hr.2.2.1⟩

/-- C4 (witness): `persisted_value_survives_restart` on `demoU8`: declared
default 50, `setVal(7)`, restart with declared default 99; the restarted
Characteristic holds 7. -/
theorem persisted_value_survives_restart_witness :
    (demoU8.chars 0).format ≠ FORMAT.STRING ∧
    ((init exactDoubles 99 true 0 100 0 demoRestart).chars 0).value = UVal.UINT8 7 ∧
    ((init exactDoubles 99 true 0 100 0 demoRestart).chars 0).newValue = UVal.UINT8 7 :=
  ⟨by decide,
   (persisted_value_survives_restart exactDoubles 2 CType.int32 7 50 0 100 99 0 100 0 demoU8
      0 demoRestart (by decide) rfl rfl rfl rfl).2.1,
   (persisted_value_survives_restart exactDoubles 2 CType.int32 7 50 0 100 99 0 100 0 demoU8
      0 demoRestart (by decide) rfl rfl rfl rfl).2.2⟩

/-! ## C5: first encounter and later startups -/

/-- C5: `init` with `nvsStore=true` distinguishes first encounter from later
startups. When the store has no blob under the derived key, `init` writes the
current cell under that key (every other key is as before), and for a numeric
format current = pending = the declared initial value (converted to the
format). When the store already has a blob under that key, `init` leaves the
store unchanged and sets current = pending = the stored blob. In both cases the
key is set to the derived key. With `nvsStore=false` the store is unchanged,
`init` does not set a key (a Characteristic without one stays without), and
for a numeric format current = pending = the declared initial value. -/
theorem init_persistence {D : Type} (F : DoubleOps D) (val min max : Int) (this : CharPtr)
    (w : World D) :
    (w.homeSpan.charNVS (w.chars this).derivedKey = none →
      (init F val true min max this w).homeSpan.charNVS (w.chars this).derivedKey =
          some ((init F val true min max this w).chars this).value ∧
      (∀ k : String, k ≠ (w.chars this).derivedKey →
        (init F val true min max this w).homeSpan.charNVS k = w.homeSpan.charNVS k) ∧
      ((init F val true min max this w).chars this).nvsKey = some (w.chars this).derivedKey ∧
      ((w.chars this).format ≠ FORMAT.STRING →
        ((init F val true min max this w).chars this).value =
            convert F (w.chars this).format val ∧
        ((init F val true min max this w).chars this).newValue =
            convert F (w.chars this).format val)) ∧
    (∀ blob : UVal D, w.homeSpan.charNVS (w.chars this).derivedKey = some blob →
      (init F val true min max this w).homeSpan.charNVS = w.homeSpan.charNVS ∧
      ((init F val true min max this w).chars this).nvsKey = some (w.chars this).derivedKey ∧
      ((init F val true min max this w).chars this).value = blob ∧
      ((init F val true min max this w).chars this).newValue = blob) ∧
    ((init F val false min max this w).homeSpan.charNVS = w.homeSpan.charNVS ∧
      ((init F val false min max this w).chars this).nvsKey = (w.chars this).nvsKey ∧
      ((w.chars this).nvsKey = none →
        ((init F val false min max this w).chars this).nvsKey = none) ∧
      ((w.chars this).format ≠ FORMAT.STRING →
        ((init F val false min max this w).chars this).value =
            convert F (w.chars this).format val ∧
        ((init F val false min max this w).chars this).newValue =
            convert F (w.chars this).format val)) := by
  refine ⟨?_, ?_, ?_⟩
  · intro hnone
    have h := init_first F val min max this w hnone
    refine ⟨?_, ?_, h.2.2.2, ?_⟩
    · rw [h.1, h.2.1]; simp [nvs_set_blob]
    · intro k hk
      rw [h.1]; simp [nvs_set_blob, hk]
    · intro hf
      rw [h.2.1, h.2.2.1, uvSet_eq_convert F _ _ val hf, uvSet_eq_convert F _ _ val hf]
      exact ⟨rfl, rfl⟩
  · intro blob hsome
    have h := init_restore F val min max this w blob hsome
    exact ⟨h.1, h.2.2.2, h.2.1, h.2.2.1⟩
  · have h := init_chars_false F val min max this w
    refine ⟨init_charNVS_false F val min max this w, h.2.2, ?_, ?_⟩
    · intro hn; rw [h.2.2, hn]
    · intro hf
      rw [h.1, h.2.1, uvSet_eq_convert F _ _ val hf, uvSet_eq_convert F _ _ val hf]
      exact ⟨rfl, rfl⟩

/-- C5 (witness): `init_persistence` on `demoU8` (empty store: first encounter,
the declared value 3 is written under the key "002500000001005") and on
`demoRestart` (the key holds 7: the stored value wins over the declared 3). -/
theorem init_persistence_witness :
    demoU8.homeSpan.charNVS (demoU8.chars 0).derivedKey = none ∧
    (init exactDoubles 3 true 0 100 0 demoU8).homeSpan.charNVS "002500000001005" =
      some (UVal.UINT8 3) ∧
    demoRestart.homeSpan.charNVS (demoRestart.chars 0).derivedKey = some (UVal.UINT8 7) ∧
    ((init exactDoubles 3 true 0 100 0 demoRestart).chars 0).value = UVal.UINT8 7 :=
  ⟨by decide,
   (((init_persistence exactDoubles 3 0 100 0 demoU8).1 (by decide)).1).trans (by decide),
   by decide,
   ((init_persistence exactDoubles 3 0 100 0 demoRestart).2.1 (UVal.UINT8 7) (by decide)).2.2.1⟩

/-! ## Lemmas on the persistence key -/

theorem hexDigits_length (k n : Nat) : (hexDigits k n).length = k := by
  induction k generalizing n with
  | zero => rfl
  | succ k ih => simp [hexDigits, ih]

theorem hexLen_le (fuel : Nat) : ∀ (w n : Nat), 0 < w → n < 16 ^ w → hexLen fuel n ≤ w := by
  induction fuel with
  | zero => intro w n hw _; simpa [hexLen] using hw
  | succ fuel ih =>
    intro w n hw hn
    unfold hexLen
    by_cases h16 : n < 16
    · simpa [h16] using hw
    · simp only [h16, if_false]
      obtain ⟨v, rfl⟩ : ∃ v, w = v + 1 := ⟨w - 1, by omega⟩
      have hv : 0 < v := by
        rcases Nat.eq_zero_or_pos v with h0 | h0
        · subst h0; simp at hn; omega
        · exact h0
      have hdiv : n / 16 < 16 ^ v := by
        rw [Nat.div_lt_iff_lt_mul (by norm_num)]
        rw [pow_succ] at hn
        exact hn
      have := ih v (n / 16) hv hdiv
      omega

theorem sprintf_0X_eq (w n : Nat) (hw : 0 < w) (hn : n < 16 ^ w) :
    sprintf_0X w n = hexDigits w n := by
  unfold sprintf_0X
  rw [Nat.max_eq_left (hexLen_le 7 w n hw hn)]

theorem hexChar_injective : ∀ a < 16, ∀ b < 16, hexChar a = hexChar b → a = b := by
  decide

theorem hexChar_upper : ∀ d < 16, hexChar d ∈ "0123456789ABCDEF".toList := by
  decide

theorem hexDigits_upper (k n : Nat) : ∀ c ∈ hexDigits k n, c ∈ "0123456789ABCDEF".toList := by
  induction k generalizing n with
  | zero => intro c hc; simp [hexDigits] at hc
  | succ k ih =>
    intro c hc
    simp only [hexDigits, List.mem_append, List.mem_singleton] at hc
    rcases hc with hc | hc
    · exact ih _ c hc
    · rw [hc]; exact hexChar_upper _ (Nat.mod_lt _ (by norm_num))

theorem hexDigits_injective (k : Nat) :
    ∀ n m : Nat, n < 16 ^ k → m < 16 ^ k → hexDigits k n = hexDigits k m → n = m := by
  induction k with
  | zero => intro n m hn hm _; simp at hn hm; omega
  | succ k ih =>
    intro n m hn hm h
    simp only [hexDigits] at h
    have hlen : (hexDigits k (n / 16)).length = (hexDigits k (m / 16)).length := by
      rw [hexDigits_length, hexDigits_length]
    obtain ⟨h1, h2⟩ := List.append_inj h hlen
    have hlast : n % 16 = m % 16 :=
      hexChar_injective _ (Nat.mod_lt _ (by norm_num)) _ (Nat.mod_lt _ (by norm_num))
        (by simpa using h2)
    have hdivn : n / 16 < 16 ^ k := by
      rw [Nat.div_lt_iff_lt_mul (by norm_num)]; rw [pow_succ] at hn; exact hn
    have hdivm : m / 16 < 16 ^ k := by
      rw [Nat.div_lt_iff_lt_mul (by norm_num)]; rw [pow_succ] at hm; exact hm
    have hdiv : n / 16 = m / 16 := ih _ _ hdivn hdivm h1
    omega

theorem iid_mask_lt (iid : Int) : (iid % 4096).toNat < 16 ^ 3 := by
  have h1 : 0 ≤ iid % 4096 := Int.emod_nonneg _ (by norm_num)
  have h2 : iid % 4096 < 4096 := Int.emod_lt_of_pos _ (by norm_num)
  omega

theorem nvsKeyOf_toList (t aid : Nat) (iid : Int) (ht : t < 2 ^ 16) (haid : aid < 2 ^ 32) :
    (nvsKeyOf t aid iid).toList =
      hexDigits 4 t ++ hexDigits 8 aid ++ hexDigits 3 (iid % 4096).toNat := by
  unfold nvsKeyOf
  rw [sprintf_0X_eq 4 t (by norm_num) (by norm_num at ht ⊢; exact ht),
    sprintf_0X_eq 8 aid (by norm_num) (by norm_num at haid ⊢; exact haid),
    sprintf_0X_eq 3 _ (by norm_num) (iid_mask_lt iid)]
  rfl

/-! ## C6: distinct Characteristics and their keys -/

/-- C6 (counterexample): the triples (0x25, 1, 1) and (0x25, 1, 4097) are not
equal, yet `init` derives the same key from both, since only `iid & 0xFFF`
enters the key. -/
theorem nvsKey_shared_counterexample :
    ((37, 1, 1) : Nat × Nat × Int) ≠ (37, 1, 4097) ∧ nvsKeyOf 37 1 1 = nvsKeyOf 37 1 4097 := by
  decide

/-- C6 (amended): for 16-bit parsed types and 32-bit Accessory ids, the keys
`init` derives from two triples (type, aid, iid) are equal exactly when the
types are equal, the aids are equal and the iids agree in their low 12 bits
(`iid & 0xFFF`); so two persisted Characteristics that differ in type, in
Accessory id or in `iid & 0xFFF` never share a key. -/
theorem nvsKey_eq_iff (t aid : Nat) (iid : Int) (t2 aid2 : Nat) (iid2 : Int)
    (ht : t < 2 ^ 16) (haid : aid < 2 ^ 32) (ht2 : t2 < 2 ^ 16) (haid2 : aid2 < 2 ^ 32) :
    nvsKeyOf t aid iid = nvsKeyOf t2 aid2 iid2 ↔
      t = t2 ∧ aid = aid2 ∧ iid % 4096 = iid2 % 4096 := by
  constructor
  · intro h
    have hl : (nvsKeyOf t aid iid).toList = (nvsKeyOf t2 aid2 iid2).toList := by rw [h]
    rw [nvsKeyOf_toList t aid iid ht haid, nvsKeyOf_toList t2 aid2 iid2 ht2 haid2] at hl
    have hlen1 : (hexDigits 4 t ++ hexDigits 8 aid).length =
        (hexDigits 4 t2 ++ hexDigits 8 aid2).length := by
      simp [hexDigits_length]
    obtain ⟨h12, h3⟩ := List.append_inj hl hlen1
    have hlen2 : (hexDigits 4 t).length = (hexDigits 4 t2).length := by
      simp [hexDigits_length]
    obtain ⟨h1, h2⟩ := List.append_inj h12 hlen2
    have e1 : t = t2 :=
      hexDigits_injective 4 t t2 (by norm_num at ht ⊢; exact ht) (by norm_num at ht2 ⊢; exact ht2) h1
    have e2 : aid = aid2 :=
      hexDigits_injective 8 aid aid2 (by norm_num at haid ⊢; exact haid)
        (by norm_num at haid2 ⊢; exact haid2) h2
    have e3 : (iid % 4096).toNat = (iid2 % 4096).toNat :=
      hexDigits_injective 3 _ _ (iid_mask_lt iid) (iid_mask_lt iid2) h3
    have p1 : 0 ≤ iid % 4096 := Int.emod_nonneg _ (by norm_num)
    have p2 : 0 ≤ iid2 % 4096 := Int.emod_nonneg _ (by norm_num)
    refine ⟨e1, e2, ?_⟩
    omega
  · rintro ⟨e1, e2, e3⟩
    unfold nvsKeyOf
    rw [e1, e2, e3]

/-- C6 (witness): `nvsKey_eq_iff` at the triples (0x25, 1, 5) and (0x25, 1, 6),
which differ in `iid & 0xFFF` and get the different keys "002500000001005" and
"002500000001006". -/
theorem nvsKey_eq_iff_witness :
    (37 : Nat) < 2 ^ 16 ∧ (1 : Nat) < 2 ^ 32 ∧ nvsKeyOf 37 1 5 ≠ nvsKeyOf 37 1 6 :=
  ⟨by norm_num, by norm_num,
   fun h => absurd ((nvsKey_eq_iff 37 1 5 37 1 6 (by norm_num) (by norm_num) (by norm_num)
     (by norm_num)).1 h).2.2 (by decide)⟩

/-! ## C7: the key is fixed-width -/

/-- C7: for every 16-bit parsed type, every 32-bit aid and every `int` iid, the
key `init` builds is exactly 15 upper-case hexadecimal characters (4 for the
type, 8 for aid, 3 for `iid & 0xFFF`), so with its null terminator it fits the
16 bytes allocated for it; this holds in particular for the type `sscanf`
parses from any type string. -/
theorem nvsKey_fixed_width (t aid : Nat) (iid : Int) (ht : t < 2 ^ 16) (haid : aid < 2 ^ 32) :
    (nvsKeyOf t aid iid).length = 15 ∧
    (nvsKeyOf t aid iid).length + 1 ≤ 16 ∧
    (∀ c ∈ (nvsKeyOf t aid iid).toList, c ∈ "0123456789ABCDEF".toList) ∧
    (nvsKeyOf t aid iid).toList =
      hexDigits 4 t ++ hexDigits 8 aid ++ hexDigits 3 (iid % 4096).toNat ∧
    (hexDigits 4 t).length = 4 ∧ (hexDigits 8 aid).length = 8 ∧
    (hexDigits 3 (iid % 4096).toNat).length = 3 ∧
    (∀ type : String, (nvsKeyOf (sscanf_x type) aid iid).length = 15) := by
  have hlen : ∀ u : Nat, u < 2 ^ 16 → (nvsKeyOf u aid iid).length = 15 := by
    intro u hu
    have h0 : (nvsKeyOf u aid iid).length = (nvsKeyOf u aid iid).toList.length := rfl
    rw [h0, nvsKeyOf_toList u aid iid hu haid]
    simp [hexDigits_length]
  have hl := nvsKeyOf_toList t aid iid ht haid
  refine ⟨hlen t ht, by rw [hlen t ht], ?_, hl, hexDigits_length _ _, hexDigits_length _ _,
    hexDigits_length _ _, fun type => hlen _ (Nat.mod_lt _ (by norm_num))⟩
  intro c hc
  rw [hl] at hc
  simp only [List.mem_append] at hc
  rcases hc with (hc | hc) | hc <;> exact hexDigits_upper _ _ c hc

/-- C7 (witness): `nvsKey_fixed_width` at the largest type and aid and a
negative iid: the key is "FFFFFFFFFFFFFFF". -/
theorem nvsKey_fixed_width_witness :
    (65535 : Nat) < 2 ^ 16 ∧ (4294967295 : Nat) < 2 ^ 32 ∧
    (nvsKeyOf 65535 4294967295 (-1)).length = 15 ∧
    nvsKeyOf 65535 4294967295 (-1) = "FFFFFFFFFFFFFFF" :=
  ⟨by norm_num, by norm_num,
   (nvsKey_fixed_width 65535 4294967295 (-1) (by norm_num) (by norm_num)).1, by decide⟩

/-! ## C8: bounds are set at most once -/

theorem setRange_rejected {D : Type} (F : DoubleOps D) (min max step : Int) (this : CharPtr)
    (w : World D)
    (hne : ¬ ((w.chars this).customRange = false ∧ (w.chars this).staticRange = false)) :
    (setRange F min max step this w).1.chars = w.chars := by
  cases hc : (w.chars this).customRange
  · cases hs : (w.chars this).staticRange
    · exact absurd ⟨hc, hs⟩ hne
    · simp [setRange, hc, hs]
  · simp [setRange, hc]

/-- C8: `setRange(min,max,step)` stores min, max and step (converted to the
format, for a numeric format) and sets `customRange` when both `customRange`
and `staticRange` are false beforehand, leaving `homeSpan.nFatalErrors`
unchanged; in every other case it increments `homeSpan.nFatalErrors` by exactly
one and leaves `minValue`, `maxValue`, `stepValue` and `customRange` (the whole
object) unchanged. In both cases it returns the Characteristic itself. -/
theorem setRange_once {D : Type} (F : DoubleOps D) (min max step : Int) (this : CharPtr)
    (w : World D) :
    (setRange F min max step this w).2 = this ∧
    ((w.chars this).customRange = false ∧ (w.chars this).staticRange = false →
      (setRange F min max step this w).1.homeSpan.nFatalErrors = w.homeSpan.nFatalErrors ∧
      ((setRange F min max step this w).1.chars this).customRange = true ∧
      ((w.chars this).format ≠ FORMAT.STRING →
        ((setRange F min max step this w).1.chars this).minValue =
            convert F (w.chars this).format min ∧
        ((setRange F min max step this w).1.chars this).maxValue =
            convert F (w.chars this).format max ∧
        ((setRange F min max step this w).1.chars this).stepValue =
            convert F (w.chars this).format step)) ∧
    (¬ ((w.chars this).customRange = false ∧ (w.chars this).staticRange = false) →
      (setRange F min max step this w).1.homeSpan.nFatalErrors = w.homeSpan.nFatalErrors + 1 ∧
      ((setRange F min max step this w).1.chars this).minValue = (w.chars this).minValue ∧
      ((setRange F min max step this w).1.chars this).maxValue = (w.chars this).maxValue ∧
      ((setRange F min max step this w).1.chars this).stepValue = (w.chars this).stepValue ∧
      ((setRange F min max step this w).1.chars this).customRange =
          (w.chars this).customRange ∧
      (setRange F min max step this w).1.chars = w.chars) := by
  refine ⟨?_, ?_, ?_⟩
  · simp only [setRange]
    split_ifs <;> rfl
  · rintro ⟨hc, hs⟩
    refine ⟨by simp [setRange, hc, hs], by simp [setRange, hc, hs], ?_⟩
    intro hf
    simp [setRange, hc, hs, uvSet_eq_convert F _ _ _ hf]
  · intro hne
    cases hc : (w.chars this).customRange
    · cases hs : (w.chars this).staticRange
      · exact absurd ⟨hc, hs⟩ hne
      · simp [setRange, hc, hs]
    · simp [setRange, hc]

/-- C8 (witness): `setRange_once` on `demoU8`: a first `setRange(10,20,1)` is
stored without error, a second one only counts an error. -/
theorem setRange_once_witness :
    ((demoU8.chars 0).customRange = false ∧ (demoU8.chars 0).staticRange = false) ∧
    ((setRange exactDoubles 10 20 1 0 demoU8).1.chars 0).minValue = UVal.UINT8 10 ∧
    ¬ (((setRange exactDoubles 10 20 1 0 demoU8).1.chars 0).customRange = false ∧
       ((setRange exactDoubles 10 20 1 0 demoU8).1.chars 0).staticRange = false) ∧
    (setRange exactDoubles 30 40 1 0 (setRange exactDoubles 10 20 1 0 demoU8).1).1.homeSpan.nFatalErrors =
      (setRange exactDoubles 10 20 1 0 demoU8).1.homeSpan.nFatalErrors + 1 :=
  ⟨by decide,
   (((setRange_once exactDoubles 10 20 1 0 demoU8).2.1 (by decide)).2.2 (by decide)).1,
   by decide,
   ((setRange_once exactDoubles 30 40 1 0 (setRange exactDoubles 10 20 1 0 demoU8).1).2.2
     (by decide)).1⟩

/-! ## C9: the range invariant -/

theorem init_bounds {D : Type} (F : DoubleOps D) (val : Int) (nvsStore : Bool) (min max : Int)
    (this : CharPtr) (w : World D) (hf : (w.chars this).format ≠ FORMAT.STRING) :
    ((init F val nvsStore min max this w).chars this).minValue =
        convert F (w.chars this).format min ∧
    ((init F val nvsStore min max this w).chars this).maxValue =
        convert F (w.chars this).format max := by
  cases nvsStore
  · simp [init, hf, uvSet_eq_convert F _ _ _ hf]
  · cases hb : nvs_get_blob w.homeSpan.charNVS
      (nvsKeyOf (sscanf_x (w.chars this).type) (w.chars this).aid (w.chars this).iid) <;>
      simp [init, hf, hb, uvSet_eq_convert F _ _ _ hf]

/-- C9 (counterexample): on the `UINT8` Characteristic of `demoU8` (value 50,
bounds [0,100]) the invariant holds, and it fails after `setVal(200)`, after
`setRange(60,100)` and after `init(200,false,0,100)`. -/
theorem inBounds_not_preserved_counterexample :
    (demoU8.chars 0).inBounds exactDoubles ∧
    ¬ ((setVal exactDoubles 2 CType.int32 200 0 demoU8).chars 0).inBounds exactDoubles ∧
    ¬ ((setRange exactDoubles 60 100 0 0 demoU8).1.chars 0).inBounds exactDoubles ∧
    ¬ ((init exactDoubles 200 false 0 100 0 demoU8).chars 0).inBounds exactDoubles := by
  decide

/-- C9 (amended): for every numeric-format Characteristic, `init`, `setRange` and
`setVal` store values and bounds without comparing them, and `min <= v <= max`
holds for the current and the pending value afterwards exactly when what was
stored is in range: after `setVal(val)`, when `val` converted to the format lies
within the stored bounds; after an accepted `setRange(min,max)`, when the
current and pending values lie within the new bounds (a rejected `setRange`
keeps the invariant as it was); after `init(val,nvsStore,min,max)`, when the
initial value, declared or restored from the store, lies within the declared
bounds. -/
theorem inBounds_after {D : Type} (F : DoubleOps D) (PW : Nat) (T : CType)
    (val min max step : Int) (nvsStore : Bool) (this : CharPtr) (w : World D)
    (hf : (w.chars this).format ≠ FORMAT.STRING) :
    (((setVal F PW T val this w).chars this).inBounds F ↔
      UVal.within F (w.chars this).minValue (w.chars this).maxValue
        (convert F (w.chars this).format val)) ∧
    ((w.chars this).customRange = false ∧ (w.chars this).staticRange = false →
      (((setRange F min max step this w).1.chars this).inBounds F ↔
        UVal.within F (convert F (w.chars this).format min) (convert F (w.chars this).format max)
          (w.chars this).value ∧
        UVal.within F (convert F (w.chars this).format min) (convert F (w.chars this).format max)
          (w.chars this).newValue)) ∧
    (¬ ((w.chars this).customRange = false ∧ (w.chars this).staticRange = false) →
      (((setRange F min max step this w).1.chars this).inBounds F ↔
        (w.chars this).inBounds F)) ∧
    (nvsStore = false ∨ w.homeSpan.charNVS (w.chars this).derivedKey = none →
      (((init F val nvsStore min max this w).chars this).inBounds F ↔
        UVal.within F (convert F (w.chars this).format min) (convert F (w.chars this).format max)
          (convert F (w.chars this).format val))) ∧
    (∀ blob : UVal D,
      nvsStore = true ∧ w.homeSpan.charNVS (w.chars this).derivedKey = some blob →
      (((init F val nvsStore min max this w).chars this).inBounds F ↔
        UVal.within F (convert F (w.chars this).format min) (convert F (w.chars this).format max)
          blob)) := by
  have hfi : ((init F val nvsStore min max this w).chars this).format ≠ FORMAT.STRING := by
    rw [(init_identity F val nvsStore min max this w this).2.1]; exact hf
  have hb := init_bounds F val nvsStore min max this w hf
  refine ⟨?_, ?_, ?_, ?_, ?_⟩
  · rw [setVal_chars_this F PW T val this w hf]
    simp [SpanCharacteristic.inBounds, hf]
  · rintro ⟨hc, hs⟩
    simp [SpanCharacteristic.inBounds, setRange, hc, hs, hf, uvSet_eq_convert F _ _ _ hf]
  · intro hne
    rw [setRange_rejected F min max step this w hne]
  · intro hcase
    have hv : ((init F val nvsStore min max this w).chars this).value =
          convert F (w.chars this).format val ∧
        ((init F val nvsStore min max this w).chars this).newValue =
          convert F (w.chars this).format val := by
      cases nvsStore
      · have h := init_chars_false F val min max this w
        rw [h.1, h.2.1, uvSet_eq_convert F _ _ val hf, uvSet_eq_convert F _ _ val hf]
        exact ⟨rfl, rfl⟩
      · rcases hcase with h | h
        · exact absurd h (by decide)
        · have h := init_first F val min max this w h
          rw [h.2.1, h.2.2.1, uvSet_eq_convert F _ _ val hf, uvSet_eq_convert F _ _ val hf]
          exact ⟨rfl, rfl⟩
    simp [SpanCharacteristic.inBounds, hfi, hb.1, hb.2, hv.1, hv.2]
  · rintro blob ⟨hn, hsome⟩
    subst hn
    have hr := init_restore F val min max this w blob hsome
    simp [SpanCharacteristic.inBounds, hfi, hb.1, hb.2, hr.2.1, hr.2.2.1]

/-- C9 (witness): `inBounds_after` on `demoU8` (bounds [0,100]): `setVal(70)`
stores a value within the bounds and the invariant holds afterwards. -/
theorem inBounds_after_witness :
    (demoU8.chars 0).format ≠ FORMAT.STRING ∧
    UVal.within exactDoubles (demoU8.chars 0).minValue (demoU8.chars 0).maxValue
      (convert exactDoubles (demoU8.chars 0).format 70) ∧
    ((setVal exactDoubles 2 CType.int32 70 0 demoU8).chars 0).inBounds exactDoubles :=
  ⟨by decide, by decide,
   (inBounds_after exactDoubles 2 CType.int32 70 0 100 0 false 0 demoU8 (by decide)).1.2
     (by decide)⟩

/-! ## C10: catalog and uniqueness violations are counted -/

theorem getLast?_modifyBack {α : Type} (f : α → α) (l : List α) :
    (modifyBack f l).getLast? = l.getLast?.map f := by
  induction l with
  | nil => rfl
  | cons a l ih =>
    cases l with
    | nil => rfl
    | cons b l =>
      have hcons : (a :: modifyBack f (b :: l)).getLast? = (modifyBack f (b :: l)).getLast? := by
        cases l <;> simp [modifyBack]
      simp only [modifyBack, List.getLast?_cons_cons]
      rw [hcons]
      exact ih

theorem backService_push {D : Type} (p : CharPtr) (hs : Span D) :
    backService (pushCharacteristic p hs) = (backService hs).map (SpanService.push p) := by
  unfold backService pushCharacteristic
  simp only [getLast?_modifyBack]
  cases hs.Accessories.getLast? with
  | none => rfl
  | some a => simp [SpanAccessory.push, getLast?_modifyBack]

theorem inCatalog_iff (type : String) (svc : SpanService) :
    inCatalog type svc = true ↔ svc.supports type := by
  unfold inCatalog SpanService.supports
  simp only [Bool.or_eq_true, List.any_eq_true, decide_eq_true_eq, List.mem_append]
  constructor
  · rintro (⟨h, hm, he⟩ | ⟨h, hm, he⟩)
    · exact ⟨h, Or.inl hm, he.symm⟩
    · exact ⟨h, Or.inr hm, he.symm⟩
  · rintro ⟨h, hm | hm, he⟩
    · exact Or.inl ⟨h, hm, he.symm⟩
    · exact Or.inr ⟨h, hm, he.symm⟩

theorem isRepeated_iff {D : Type} (type : String) (svc : SpanService)
    (chars : CharPtr → SpanCharacteristic D) :
    isRepeated type svc chars = true ↔ type ∈ svc.typesOf chars := by
  unfold isRepeated SpanService.typesOf
  simp only [List.any_eq_true, decide_eq_true_eq, List.mem_map]
  constructor
  · rintro ⟨p, hp, he⟩; exact ⟨p, hp, he.symm⟩
  · rintro ⟨p, hp, he⟩; exact ⟨p, hp, he.symm⟩

theorem init_backService {D : Type} (F : DoubleOps D) (val : Int) (nvsStore : Bool)
    (min max : Int) (this : CharPtr) (w : World D) :
    backService (init F val nvsStore min max this w).homeSpan =
      (backService w.homeSpan).map (SpanService.push this) := by
  have h : (init F val nvsStore min max this w).homeSpan.Accessories =
      (pushCharacteristic this w.homeSpan).Accessories := by
    simp [init, pushCharacteristic]
  have hb : ∀ a b : Span D, a.Accessories = b.Accessories → backService a = backService b := by
    intro a b hab; unfold backService; rw [hab]
  rw [hb _ _ h, backService_push]

theorem init_nFatalErrors {D : Type} (F : DoubleOps D) (val : Int) (nvsStore : Bool)
    (min max : Int) (this : CharPtr) (w : World D) (svc : SpanService)
    (hsvc : backService w.homeSpan = some svc) :
    (init F val nvsStore min max this w).homeSpan.nFatalErrors =
      w.homeSpan.nFatalErrors +
        (if inCatalog (w.chars this).type svc && !isRepeated (w.chars this).type svc w.chars
          then 0 else 1) := by
  simp only [init, pushCharacteristic, hsvc, Option.getD_some]
  cases inCatalog (w.chars this).type svc <;>
    cases isRepeated (w.chars this).type svc w.chars <;> simp

theorem init_step {D : Type} (F : DoubleOps D) (val : Int) (nvsStore : Bool)
    (min max : Int) (this : CharPtr) (w : World D) (svc : SpanService)
    (hsvc : backService w.homeSpan = some svc) :
    backService (init F val nvsStore min max this w).homeSpan = some (svc.push this) ∧
    (¬ svc.supports (w.chars this).type ∨ (w.chars this).type ∈ svc.typesOf w.chars →
      (init F val nvsStore min max this w).homeSpan.nFatalErrors =
        w.homeSpan.nFatalErrors + 1) ∧
    (svc.supports (w.chars this).type ∧ (w.chars this).type ∉ svc.typesOf w.chars →
      (init F val nvsStore min max this w).homeSpan.nFatalErrors = w.homeSpan.nFatalErrors) := by
  have hn := init_nFatalErrors F val nvsStore min max this w svc hsvc
  have hc := inCatalog_iff (w.chars this).type svc
  have hr := isRepeated_iff (w.chars this).type svc w.chars
  refine ⟨by rw [init_backService, hsvc]; rfl, ?_, ?_⟩
  · intro h
    rw [hn]
    rcases h with h | h
    · have : inCatalog (w.chars this).type svc = false := by
        rw [← Bool.not_eq_true, hc]; exact h
      simp [this]
    · have : isRepeated (w.chars this).type svc w.chars = true := hr.2 h
      simp [this]
  · rintro ⟨h1, h2⟩
    rw [hn]
    have e1 : inCatalog (w.chars this).type svc = true := hc.2 h1
    have e2 : isRepeated (w.chars this).type svc w.chars = false := by
      rw [← Bool.not_eq_true, hr]; exact h2
    simp [e1, e2]

theorem typesOf_init {D : Type} (F : DoubleOps D) (val : Int) (nvsStore : Bool)
    (min max : Int) (this : CharPtr) (w : World D) (svc : SpanService) :
    svc.typesOf (init F val nvsStore min max this w).chars = svc.typesOf w.chars := by
  unfold SpanService.typesOf
  apply List.map_congr_left
  intro p _
  exact (init_identity F val nvsStore min max this w p).1

theorem runInits_wellTyped {D : Type} (F : DoubleOps D) (calls : List InitCall) :
    ∀ (w : World D) (svc : SpanService), backService w.homeSpan = some svc →
      ∃ svc2 : SpanService,
        backService (runInits F calls w).homeSpan = some svc2 ∧
        svc2.req = svc.req ∧ svc2.opt = svc.opt ∧
        svc2.Characteristics = svc.Characteristics ++ calls.map (fun c => c.this) ∧
        w.homeSpan.nFatalErrors ≤ (runInits F calls w).homeSpan.nFatalErrors ∧
        ((runInits F calls w).homeSpan.nFatalErrors = w.homeSpan.nFatalErrors →
          svc.wellTyped w.chars → svc2.wellTyped (runInits F calls w).chars) := by
  induction calls with
  | nil =>
    intro w svc hsvc
    exact ⟨svc, hsvc, rfl, rfl, by simp, le_refl _, fun _ h => h⟩
  | cons c cs ih =>
    intro w svc hsvc
    have hstep := init_step F c.val c.nvsStore c.min c.max c.this w svc hsvc
    have hn := init_nFatalErrors F c.val c.nvsStore c.min c.max c.this w svc hsvc
    obtain ⟨svc2, h1, h2, h3, h4, h5, h6⟩ :=
      ih (init F c.val c.nvsStore c.min c.max c.this w) (svc.push c.this) hstep.1
    have hmono : w.homeSpan.nFatalErrors ≤
        (init F c.val c.nvsStore c.min c.max c.this w).homeSpan.nFatalErrors := by
      rw [hn]; split_ifs <;> omega
    have hrun : runInits F (c :: cs) w =
        runInits F cs (init F c.val c.nvsStore c.min c.max c.this w) := rfl
    rw [hrun]
    refine ⟨svc2, h1, h2, h3, ?_, le_trans hmono h5, ?_⟩
    · rw [h4]; simp [SpanService.push]
    · intro hsame hgood
      have heq : (init F c.val c.nvsStore c.min c.max c.this w).homeSpan.nFatalErrors =
          w.homeSpan.nFatalErrors := by omega
      apply h6 (by omega)
      have hok : svc.supports (w.chars c.this).type ∧
          (w.chars c.this).type ∉ svc.typesOf w.chars := by
        by_contra hcon
        have : ¬ svc.supports (w.chars c.this).type ∨
            (w.chars c.this).type ∈ svc.typesOf w.chars := by
          by_cases hs : svc.supports (w.chars c.this).type
          · right
            by_contra hm
            exact hcon ⟨hs, hm⟩
          · left; exact hs
        have := hstep.2.1 this
        omega
      have hty := fun p => (init_identity F c.val c.nvsStore c.min c.max c.this w p).1
      constructor
      · intro p hp
        have hp2 : p ∈ svc.Characteristics ∨ p = c.this := by
          simpa [SpanService.push] using hp
        have hsup : svc.supports (w.chars p).type := by
          rcases hp2 with hp2 | hp2
          · exact hgood.1 p hp2
          · rw [hp2]; exact hok.1
        rw [hty p]
        exact hsup
      · have e : (svc.push c.this).typesOf (init F c.val c.nvsStore c.min c.max c.this w).chars =
            svc.typesOf w.chars ++ [(w.chars c.this).type] := by
          simp only [SpanService.typesOf, SpanService.push, List.map_append, List.map_cons,
            List.map_nil]
          congr 1
          · apply List.map_congr_left
            intro p _
            exact hty p
          · rw [hty c.this]
        rw [e]
        exact List.Nodup.append hgood.2 (List.nodup_singleton _)
          (by
            intro a ha hb
            rw [List.mem_singleton] at hb
            exact hok.2 (hb ▸ ha))

/-- C10: catalog and uniqueness violations are always counted. For every
sequence of `init` calls that adds Characteristics to a Service starting from an
empty Characteristics list, the Service's list afterwards is the list of the
objects the calls were made on, in order, and if `homeSpan.nFatalErrors` is the
same after the sequence as before it, then every Characteristic in the Service
has a type that appears in the Service's `req` or `opt` catalog and no two
Characteristics in the Service have the same type. Each single `init` call
raises `nFatalErrors` by one when the type is outside the catalog or repeats an
existing type, by zero otherwise, and appends the Characteristic to the end of
the Service's list in either case. -/
theorem init_counts_violations {D : Type} (F : DoubleOps D) (calls : List InitCall)
    (w : World D) (svc : SpanService)
    (hsvc : backService w.homeSpan = some svc) (hempty : svc.Characteristics = []) :
    (∃ svc2 : SpanService,
      backService (runInits F calls w).homeSpan = some svc2 ∧
      svc2.req = svc.req ∧ svc2.opt = svc.opt ∧
      svc2.Characteristics = calls.map (fun c => c.this) ∧
      ((runInits F calls w).homeSpan.nFatalErrors = w.homeSpan.nFatalErrors →
        (∀ p ∈ svc2.Characteristics, svc2.supports ((runInits F calls w).chars p).type) ∧
        (svc2.typesOf (runInits F calls w).chars).Nodup)) ∧
    (∀ (val : Int) (nvsStore : Bool) (min max : Int) (this : CharPtr) (w1 : World D)
        (svc1 : SpanService), backService w1.homeSpan = some svc1 →
      (∃ svc3 : SpanService,
        backService (init F val nvsStore min max this w1).homeSpan = some svc3 ∧
        svc3.Characteristics = svc1.Characteristics ++ [this] ∧
        svc3.req = svc1.req ∧ svc3.opt = svc1.opt) ∧
      (¬ svc1.supports (w1.chars this).type ∨ (w1.chars this).type ∈ svc1.typesOf w1.chars →
        (init F val nvsStore min max this w1).homeSpan.nFatalErrors =
          w1.homeSpan.nFatalErrors + 1) ∧
      (svc1.supports (w1.chars this).type ∧ (w1.chars this).type ∉ svc1.typesOf w1.chars →
        (init F val nvsStore min max this w1).homeSpan.nFatalErrors =
          w1.homeSpan.nFatalErrors)) := by
  constructor
  · obtain ⟨svc2, h1, h2, h3, h4, _, h6⟩ := runInits_wellTyped F calls w svc hsvc
    refine ⟨svc2, h1, h2, h3, by rw [h4, hempty]; rfl, ?_⟩
    intro hsame
    have hgood : svc.wellTyped w.chars := by
      constructor
      · intro p hp; rw [hempty] at hp; cases hp
      · simp [SpanService.typesOf, hempty]
    exact h6 hsame hgood
  · intro val nvsStore min max this w1 svc1 hsvc1
    have hstep := init_step F val nvsStore min max this w1 svc1 hsvc1
    exact ⟨⟨svc1.push this, hstep.1, rfl, rfl, rfl⟩, hstep.2.1, hstep.2.2⟩

/-- C10 (witness): `init_counts_violations` on `demoThree`, whose Service
requires type "25" and allows "23": after `init` on the objects of types "25" and
"23" no error is counted and the Service lists both; a further `init` on an
object of type "99", outside the catalog, counts one error. -/
theorem init_counts_violations_witness :
    backService demoThree.homeSpan = some demoService ∧ demoService.Characteristics = [] ∧
    (runInits exactDoubles demoCalls demoThree).homeSpan.nFatalErrors =
      demoThree.homeSpan.nFatalErrors ∧
    (∃ svc2 : SpanService,
      backService (runInits exactDoubles demoCalls demoThree).homeSpan = some svc2 ∧
      svc2.Characteristics = [0, 1] ∧
      (svc2.typesOf (runInits exactDoubles demoCalls demoThree).chars).Nodup) ∧
    (init exactDoubles 3 false 0 100 2 demoThree).homeSpan.nFatalErrors =
      demoThree.homeSpan.nFatalErrors + 1 :=
  ⟨by decide, rfl, by decide,
   (init_counts_violations exactDoubles demoCalls demoThree demoService (by decide) rfl).1.elim
     fun svc2 h => ⟨svc2, h.1, h.2.2.2.1, (h.2.2.2.2 (by decide)).2⟩,
   ((init_counts_violations exactDoubles demoCalls demoThree demoService (by decide) rfl).2
     3 false 0 100 2 demoThree demoService (by decide)).2.1
     (Or.inl (by
       rintro ⟨h, hm, he⟩
       revert he
       revert hm
       revert h
       decide))⟩

/-! ## C11: `setVal` on a string Characteristic without write permission -/

theorem setVal_string_not_ignored {D : Type} (F : DoubleOps D) (PW : Nat) (T : CType)
    (val : Int) (this : CharPtr) (w : World D)
    (hfmt : (w.chars this).format = FORMAT.STRING) (hPW : PW ≠ 0) :
    (setVal F PW T val this w).homeSpan.Notifications =
      w.homeSpan.Notifications ++
        [{ characteristic := some this, status := StatusCode.OK, val := some "" }] ∧
    ((setVal F PW T val this w).chars this).updateTime = w.homeSpan.snapTime ∧
    ((setVal F PW T val this w).chars this).value = (w.chars this).value ∧
    ((setVal F PW T val this w).chars this).newValue = (w.chars this).newValue ∧
    (setVal F PW T val this w).Serial = w.Serial := by
  have hcond : ¬ ((w.chars this).format = FORMAT.STRING ∧
      (w.chars this).perms &&& (if PW = 0 then 1 else 0) ≠ 0) := by
    rintro ⟨_, hp⟩
    simp [hPW] at hp
  refine ⟨?_, ?_, ?_, ?_, ?_⟩
  · rw [setVal_homeSpan F PW T val this w (fun _ => hPW)]
    cases (w.chars this).nvsKey <;> rfl
  · unfold setVal
    simp only [hcond, if_false, Function.update_same]
  · rw [setVal_value F PW T val this w (fun _ => hPW), hfmt]
    rfl
  · unfold setVal
    simp only [hcond, if_false, Function.update_same]
    rw [hfmt]
    rfl
  · unfold setVal
    simp only [hcond, if_false]
    simp [hfmt]

/-- C11 (the code at the failing input): on the `STRING` Characteristic of
`demoName`, whose permissions (`perms = 1`) lack the write bit `PW = 2`,
`setVal(5)` is not ignored: no warning is printed, the queue grows by one
record, `updateTime` moves from 0 to `snapTime = 1000` and the store, empty
before, holds a blob under the key "K"; only the two cells keep their content. -/
theorem setVal_string_without_write_permission :
    (demoName.chars 0).format = FORMAT.STRING ∧
    (demoName.chars 0).perms &&& 2 = 0 ∧
    (setVal exactDoubles 2 CType.int32 5 0 demoName).Serial = [] ∧
    demoName.homeSpan.Notifications = [] ∧
    (setVal exactDoubles 2 CType.int32 5 0 demoName).homeSpan.Notifications =
      [{ characteristic := some 0, status := StatusCode.OK, val := some "" }] ∧
    (demoName.chars 0).updateTime = 0 ∧
    ((setVal exactDoubles 2 CType.int32 5 0 demoName).chars 0).updateTime = 1000 ∧
    demoName.homeSpan.charNVS "K" = none ∧
    (setVal exactDoubles 2 CType.int32 5 0 demoName).homeSpan.charNVS "K" =
      some (UVal.STRING (some "Lamp")) ∧
    ((setVal exactDoubles 2 CType.int32 5 0 demoName).chars 0).value =
      UVal.STRING (some "Lamp") ∧
    ((setVal exactDoubles 2 CType.int32 5 0 demoName).chars 0).newValue =
      UVal.STRING (some "Lamp") := by
  decide

/-! ## C12: rendering a string cell -/

theorem uvPrint_string {D : Type} (g : D → String) (s : String) :
    uvPrint g FORMAT.STRING (UVal.STRING (some s)) =
      if s.length ≤ 61 then some ("\"" ++ s ++ "\"") else none := by
  simp only [uvPrint, sprintfInto, String.length_append]
  have h1 : ("\"" : String).length = 1 := rfl
  rw [h1]
  by_cases h : s.length ≤ 61
  · have : 1 + s.length + 1 + 1 ≤ 64 := by omega
    simp [h, this]
  · have : ¬ (1 + s.length + 1 + 1 ≤ 64) := by omega
    simp [h, this]

/-- C12 (the code at the failing input): a `STRING` cell holding a text of 62
characters has no rendering inside the 64-byte buffer of `uvPrint` (the two
quotes, the text and the null terminator take 65 bytes: `sprintf` writes past
the end of `c`), while a text of 61 characters is rendered quoted. -/
theorem uvPrint_string_overflow :
    text62.length = 62 ∧
    uvPrint (fun _ : Int => "") FORMAT.STRING (UVal.STRING (some text62)) = none ∧
    text61.length = 61 ∧
    uvPrint (fun _ : Int => "") FORMAT.STRING (UVal.STRING (some text61)) =
      some ("\"" ++ text61 ++ "\"") := by
  decide

/-! ## Lemmas on decimal numerals -/

theorem decChar_toNat : ∀ d < 10, (decChar d).toNat - 48 = d := by
  decide

theorem decChar_digit : ∀ d < 10, decChar d ∈ "0123456789".toList := by
  decide

theorem decValue_append (l : List Char) (c : Char) :
    decValue (l ++ [c]) = decValue l * 10 + (c.toNat - 48) := by
  simp [decValue, List.foldl_append]

theorem decDigits_value (fuel : Nat) : ∀ n : Nat, n < 10 ^ fuel → decValue (decDigits fuel n) = n := by
  induction fuel with
  | zero =>
    intro n hn
    have : n = 0 := by simpa using hn
    subst this
    rfl
  | succ fuel ih =>
    intro n hn
    unfold decDigits
    by_cases h10 : n < 10
    · simp only [h10, if_true]
      have := decChar_toNat n h10
      simp [decValue, this]
    · simp only [h10, if_false]
      have hdiv : n / 10 < 10 ^ fuel := by
        rw [Nat.div_lt_iff_lt_mul (by norm_num)]
        rw [pow_succ] at hn
        exact hn
      rw [decValue_append, ih _ hdiv, decChar_toNat _ (Nat.mod_lt _ (by norm_num))]
      omega

theorem decDigits_digit (fuel : Nat) :
    ∀ n : Nat, ∀ c ∈ decDigits fuel n, c ∈ "0123456789".toList := by
  induction fuel with
  | zero => intro n c hc; simp [decDigits] at hc
  | succ fuel ih =>
    intro n c hc
    unfold decDigits at hc
    by_cases h10 : n < 10
    · simp only [h10, if_true, List.mem_singleton] at hc
      rw [hc]; exact decChar_digit n h10
    · simp only [h10, if_false, List.mem_append, List.mem_singleton] at hc
      rcases hc with hc | hc
      · exact ih _ c hc
      · rw [hc]; exact decChar_digit _ (Nat.mod_lt _ (by norm_num))

theorem decDigits_length_le (fuel : Nat) :
    ∀ k n : Nat, 0 < k → n < 10 ^ k → (decDigits fuel n).length ≤ k := by
  induction fuel with
  | zero => intro k n _ _; simp [decDigits]
  | succ fuel ih =>
    intro k n hk hn
    unfold decDigits
    by_cases h10 : n < 10
    · simpa [h10] using hk
    · simp only [h10, if_false, List.length_append, List.length_singleton]
      obtain ⟨v, rfl⟩ : ∃ v, k = v + 1 := ⟨k - 1, by omega⟩
      have hv : 0 < v := by
        rcases Nat.eq_zero_or_pos v with h0 | h0
        · subst h0; simp at hn; omega
        · exact h0
      have hdiv : n / 10 < 10 ^ v := by
        rw [Nat.div_lt_iff_lt_mul (by norm_num)]
        rw [pow_succ] at hn
        exact hn
      have := ih v (n / 10) hv hdiv
      omega

theorem lt_ten_pow_succ (n : Nat) : n < 10 ^ (n + 1) :=
  lt_trans (Nat.lt_pow_self (by norm_num) n) (Nat.pow_lt_pow_right (by norm_num) (Nat.lt_succ_self n))

theorem decimalValue_decimal (v : Int) : decimalValue (decimal v) = v := by
  have hval := decDigits_value (v.natAbs + 1) v.natAbs (lt_ten_pow_succ _)
  unfold decimalValue decimal
  by_cases hneg : v < 0
  · simp only [hneg, if_true]
    have : (String.mk ('-' :: decDigits (v.natAbs + 1) v.natAbs)).toList =
        '-' :: decDigits (v.natAbs + 1) v.natAbs := rfl
    rw [this]
    simp only [hval]
    omega
  · simp only [hneg, if_false]
    have : (String.mk (decDigits (v.natAbs + 1) v.natAbs)).toList =
        decDigits (v.natAbs + 1) v.natAbs := rfl
    rw [this]
    split
    · rename_i ds heq
      have hmem : '-' ∈ decDigits (v.natAbs + 1) v.natAbs := by rw [heq]; simp
      exact absurd (decDigits_digit _ _ _ hmem) (by decide)
    · rw [hval]
      omega

theorem decimal_length_le (v : Int) (h0 : 0 ≤ v) (h64 : v < 2 ^ 64) : (decimal v).length ≤ 20 := by
  unfold decimal
  have hneg : ¬ v < 0 := by omega
  simp only [hneg, if_false]
  have : (String.mk (decDigits (v.natAbs + 1) v.natAbs)).length =
      (decDigits (v.natAbs + 1) v.natAbs).length := rfl
  rw [this]
  apply decDigits_length_le _ 20 _ (by norm_num)
  have : (v.natAbs : Int) < 2 ^ 64 := by omega
  have h2 : v.natAbs < 2 ^ 64 := by exact_mod_cast this
  exact lt_trans h2 (by norm_num)

/-! ## C13: rendering boolean and integer cells -/

/-- C13: `uvPrint` renders the cells of the boolean and integer formats
canonically according to the format tag. A `BOOL` cell renders as "0" when false
and "1" when true, so a `BOOL` cell set from any non-zero number renders "1". An
`INT`, `UINT8`, `UINT16`, `UINT32` or `UINT64` cell renders as the decimal
numeral of the stored value: a text that denotes exactly that value, with a
leading minus sign for a negative `INT`, digits only otherwise, and the full
64-bit value for `UINT64` (the largest one renders "18446744073709551615"). -/
theorem uvPrint_canonical {D : Type} (g : D → String) :
    uvPrint g FORMAT.BOOL (UVal.BOOL false) = some "0" ∧
    uvPrint g FORMAT.BOOL (UVal.BOOL true) = some "1" ∧
    (∀ (F : DoubleOps D) (u : UVal D) (val : Int), val ≠ 0 →
      uvPrint g FORMAT.BOOL (uvSet F FORMAT.BOOL u val) = some "1") ∧
    (∀ v : Int, uvPrint g FORMAT.INT (UVal.INT v) = some (decimal v)) ∧
    (∀ v : Int, uvPrint g FORMAT.UINT8 (UVal.UINT8 v) = some (decimal v)) ∧
    (∀ v : Int, uvPrint g FORMAT.UINT16 (UVal.UINT16 v) = some (decimal v)) ∧
    (∀ v : Int, uvPrint g FORMAT.UINT32 (UVal.UINT32 v) = some (decimal v)) ∧
    (∀ v : Int, 0 ≤ v → v < 2 ^ 64 →
      uvPrint g FORMAT.UINT64 (UVal.UINT64 v) = some (decimal v)) ∧
    (∀ v : Int, decimalValue (decimal v) = v) ∧
    (∀ v : Int, v < 0 → (decimal v).toList.head? = some '-') ∧
    (∀ v : Int, 0 ≤ v → ∀ c ∈ (decimal v).toList, c ∈ "0123456789".toList) ∧
    uvPrint g FORMAT.UINT64 (UVal.UINT64 (2 ^ 64 - 1)) = some "18446744073709551615" := by
  have h64 : ∀ v : Int, 0 ≤ v → v < 2 ^ 64 →
      uvPrint g FORMAT.UINT64 (UVal.UINT64 v) = some (decimal v) := by
    intro v h0 h1
    have := decimal_length_le v h0 h1
    have hfit : (decimal v).length + 1 ≤ 64 := by omega
    simp [uvPrint, sprintfInto, hfit]
  have hb : ∀ b : Bool, uvPrint g FORMAT.BOOL (UVal.BOOL b) =
      some (decimal (if b then 1 else 0)) := fun _ => rfl
  refine ⟨by rw [hb]; decide, by rw [hb]; decide, ?_, fun _ => rfl, fun _ => rfl,
    fun _ => rfl, fun _ => rfl, h64, decimalValue_decimal, ?_, ?_, ?_⟩
  · intro F u val hval
    simp only [uvSet, uvPrint, hval, ne_eq, not_false_eq_true, decide_True, if_true]
    decide
  · intro v hv
    simp [decimal, hv]
  · intro v hv c hc
    have hneg : ¬ v < 0 := by omega
    simp only [decimal, hneg, if_false] at hc
    exact decDigits_digit _ _ c hc
  · rw [h64 _ (by norm_num) (by norm_num)]
    decide

/-- C13 (witness): `uvPrint_canonical` at a `BOOL` cell set from 7, at the largest
`UINT64` value and at the most negative `INT` value. -/
theorem uvPrint_canonical_witness :
    (7 : Int) ≠ 0 ∧
    uvPrint (fun _ : Int => "") FORMAT.BOOL (uvSet exactDoubles FORMAT.BOOL (UVal.BOOL false) 7) =
      some "1" ∧
    ((0 : Int) ≤ 18446744073709551615 ∧ (18446744073709551615 : Int) < 2 ^ 64) ∧
    uvPrint (fun _ : Int => "") FORMAT.UINT64 (UVal.UINT64 18446744073709551615) =
      some "18446744073709551615" ∧
    uvPrint (fun _ : Int => "") FORMAT.INT (UVal.INT (-2147483648)) = some "-2147483648" :=
  ⟨by decide,
   (uvPrint_canonical (fun _ : Int => "")).2.2.1 exactDoubles (UVal.BOOL false) 7 (by decide),
   ⟨by norm_num, by norm_num⟩,
   ((uvPrint_canonical (fun _ : Int => "")).2.2.2.2.2.2.2.1 18446744073709551615
      (by norm_num) (by norm_num)).trans (by decide),
   ((uvPrint_canonical (fun _ : Int => "")).2.2.2.1 (-2147483648)).trans (by decide)⟩

/-! ## C14: the getters on string cells -/

/-- C14 (counterexample): the `STRING` Characteristic of `demoNull` holds the null
pointer (the default of the union), so `getString()` and `getNewString()` return
the null pointer although the format is `STRING`. -/
theorem getString_null_counterexample :
    (demoNull.chars 0).format = FORMAT.STRING ∧
    getString 0 demoNull = none ∧ getNewString 0 demoNull = none ∧
    ¬ (getString 0 demoNull = none ↔ (demoNull.chars 0).format ≠ FORMAT.STRING) ∧
    ¬ (getNewString 0 demoNull = none ↔ (demoNull.chars 0).format ≠ FORMAT.STRING) := by
  decide

/-- C14 (amended): for every `STRING`-format Characteristic and every requested
numeric type, `getVal()` and `getNewVal()` return 0 and print the warning,
whatever the cell holds. `getString()` and `getNewString()` return the null
pointer whenever the format is not `STRING`, and return the pointer held by the
cell when the format is `STRING`; so for a cell that holds a string they return
the null pointer exactly when the format is not `STRING`. -/
theorem getters_on_string {D : Type} (F : DoubleOps D) (T : CType) (this : CharPtr)
    (w : World D) :
    ((w.chars this).format = FORMAT.STRING →
      (getVal F T this w).1 = 0 ∧
      (getVal F T this w).2.Serial = w.Serial ++ [SerialMsg.getValOnString] ∧
      (getNewVal F T this w).1 = 0 ∧
      (getNewVal F T this w).2.Serial = w.Serial ++ [SerialMsg.getValOnString]) ∧
    ((w.chars this).format ≠ FORMAT.STRING →
      getString this w = none ∧ getNewString this w = none) ∧
    ((w.chars this).format = FORMAT.STRING →
      (∀ p : Option String, (w.chars this).value = UVal.STRING p → getString this w = p) ∧
      (∀ p : Option String, (w.chars this).newValue = UVal.STRING p →
        getNewString this w = p)) ∧
    (∀ s : String, (w.chars this).value = UVal.STRING (some s) →
      (getString this w = none ↔ (w.chars this).format ≠ FORMAT.STRING)) ∧
    (∀ s : String, (w.chars this).newValue = UVal.STRING (some s) →
      (getNewString this w = none ↔ (w.chars this).format ≠ FORMAT.STRING)) := by
  refine ⟨?_, ?_, ?_, ?_, ?_⟩
  · intro hf
    simp [getVal, getNewVal, uvGet, hf]
  · intro hf
    simp [getString, getNewString, hf]
  · intro hf
    constructor
    · intro p hp
      simp [getString, hf, hp]
    · intro p hp
      simp [getNewString, hf, hp]
  · intro s hs
    by_cases hf : (w.chars this).format = FORMAT.STRING <;> simp [getString, hf, hs]
  · intro s hs
    by_cases hf : (w.chars this).format = FORMAT.STRING <;> simp [getNewString, hf, hs]

/-- C14 (witness): `getters_on_string` on the `STRING` Characteristic of
`demoName`, which holds "Lamp": `getVal<int>()` returns 0 and prints the warning,
`getString()` returns the text. -/
theorem getters_on_string_witness :
    (demoName.chars 0).format = FORMAT.STRING ∧
    (getVal exactDoubles CType.int32 0 demoName).1 = 0 ∧
    (getVal exactDoubles CType.int32 0 demoName).2.Serial = [SerialMsg.getValOnString] ∧
    (demoName.chars 0).value = UVal.STRING (some "Lamp") ∧
    getString 0 demoName = some "Lamp" :=
  ⟨rfl,
   ((getters_on_string exactDoubles CType.int32 0 demoName).1 rfl).1,
   ((getters_on_string exactDoubles CType.int32 0 demoName).1 rfl).2.1,
   rfl,
   ((getters_on_string exactDoubles CType.int32 0 demoName).2.2.1 rfl).1 (some "Lamp") rfl⟩

/-! ## C15: the out-of-range warning -/

theorem uvGet_integer {D : Type} (F : DoubleOps D) (T R : CType) (format : FORMAT) (x : Int)
    (hR : format.ctype? = some R) :
    (uvGet F T format (convert F format x)).1 = T.cast (convert F format x).toInt := by
  cases format <;> simp [FORMAT.ctype?] at hR <;>
    simp [uvGet, convert, UVal.toInt]

theorem setVal_warning {D : Type} (F : DoubleOps D) (PW : Nat) (T R : CType) (val lo hi : Int)
    (this : CharPtr) (w : World D)
    (hR : (w.chars this).format.ctype? = some R)
    (hmin : (w.chars this).minValue = convert F (w.chars this).format lo)
    (hmax : (w.chars this).maxValue = convert F (w.chars this).format hi) :
    (setVal F PW T val this w).Serial =
      if val < T.cast (convert F (w.chars this).format lo).toInt ∨
          val > T.cast (convert F (w.chars this).format hi).toInt
      then w.Serial ++ [SerialMsg.setValOutOfRange] else w.Serial := by
  have hf : (w.chars this).format ≠ FORMAT.STRING := by
    intro h; rw [h] at hR; simp [FORMAT.ctype?] at hR
  unfold setVal
  simp only [hf, false_and, if_false, ne_eq, not_false_eq_true, true_and]
  rw [hmin, hmax, uvGet_integer F T R _ lo hR, uvGet_integer F T R _ hi hR]

theorem setVal_warning_of_holds {D : Type} (F : DoubleOps D) (PW : Nat) (T R : CType)
    (val lo hi : Int) (this : CharPtr) (w : World D)
    (hR : (w.chars this).format.ctype? = some R)
    (hmin : (w.chars this).minValue = convert F (w.chars this).format lo)
    (hmax : (w.chars this).maxValue = convert F (w.chars this).format hi)
    (hlo : T.holds (convert F (w.chars this).format lo).toInt)
    (hhi : T.holds (convert F (w.chars this).format hi).toInt) :
    (setVal F PW T val this w).Serial =
      if val < (convert F (w.chars this).format lo).toInt ∨
          val > (convert F (w.chars this).format hi).toInt
      then w.Serial ++ [SerialMsg.setValOutOfRange] else w.Serial := by
  rw [setVal_warning F PW T R val lo hi this w hR hmin hmax]
  unfold CType.holds at hlo hhi
  rw [hlo, hhi]

/-- C15 (the code at the failing inputs): `setVal` prints the out-of-range
warning for a value that is in range. On the `INT` Characteristic of `demoTilt`
(bounds [-90,90]) the call `setVal<uint32_t>(5)` compares 5 with
`(uint32_t)(-90) = 4294967206` and warns; on the `UINT32` Characteristic of
`demoWide` (bounds [0,4294967295]) the call `setVal<int>(5)` compares 5 with
`(int)4294967295 = -1` and warns. -/
theorem setVal_warns_in_range :
    ((demoTilt.chars 0).format = FORMAT.INT ∧
      (demoTilt.chars 0).minValue = UVal.INT (-90) ∧
      (demoTilt.chars 0).maxValue = UVal.INT 90 ∧
      CType.uint32.holds 5 ∧ ¬ ((5 : Int) < -90 ∨ (5 : Int) > 90) ∧
      CType.uint32.cast (-90) = 4294967206 ∧
      (setVal exactDoubles 2 CType.uint32 5 0 demoTilt).Serial =
        [SerialMsg.setValOutOfRange]) ∧
    ((demoWide.chars 0).format = FORMAT.UINT32 ∧
      (demoWide.chars 0).minValue = UVal.UINT32 0 ∧
      (demoWide.chars 0).maxValue = UVal.UINT32 4294967295 ∧
      CType.int32.holds 5 ∧ ¬ ((5 : Int) < 0 ∨ (5 : Int) > 4294967295) ∧
      CType.int32.cast 4294967295 = -1 ∧
      (setVal exactDoubles 2 CType.int32 5 0 demoWide).Serial =
        [SerialMsg.setValOutOfRange]) := by
  decide

end HomeSpan
